import Mathlib

/-!
Verification of the delta-sync and notification-fanout core of the backend
(`app/api/v1/endpoints/delta_sync.py` and `app/services/notification.py`).

The Python source is shallowly embedded: documents of the Mongo store become
records over `Option`-typed fields (a missing/null field is `none`), stored
instants become epoch microseconds (`Int`), query pipelines become
filter/sort/take over lists, and the notification path is modelled as an
event trace (persist, live push) so that ordering and abort behaviour are
visible.  `datetime.fromisoformat` (CPython's pre-3.11 grammar, the subset
shared by all supported interpreter versions) is embedded as an executable
parser over `List Char`; numeric fields inside timestamps are read as strict
fixed-width digit runs.
-/

/-! ## Characters and fixed-width digit runs -/

def isDigitCh (c : Char) : Bool := decide (48 ≤ c.toNat) && decide (c.toNat ≤ 57)

def digitVal (c : Char) : Nat := c.toNat - 48

def digitCh (d : Nat) : Char := Char.ofNat (48 + d)

/-- Fixed-width decimal rendering, most significant digit first. -/
def padDigits : Nat → Nat → List Char
  | 0, _ => []
  | k + 1, n => digitCh (n / 10 ^ k) :: padDigits k (n % 10 ^ k)

/-- Consume exactly `k` decimal digits, accumulating their value. -/
def parseFixedGo : Nat → Nat → List Char → Option (Nat × List Char)
  | 0, acc, cs => some (acc, cs)
  | k + 1, acc, cs =>
    match cs with
    | [] => none
    | c :: cs' => if isDigitCh c then parseFixedGo k (acc * 10 + digitVal c) cs' else none

def parseFixed (k : Nat) (cs : List Char) : Option (Nat × List Char) :=
  parseFixedGo k 0 cs

/-- Value of a run of digit characters (used for fractional seconds). -/
def digitsVal (cs : List Char) : Nat :=
  cs.foldl (fun acc c => acc * 10 + digitVal c) 0

/-! ## The aware/naive datetime produced by `datetime.fromisoformat` -/

/-- A Python `datetime` as produced by `fromisoformat`: calendar fields plus
an optional UTC offset in microseconds (`none` = naive datetime). -/
structure PyDateTime where
  year : Nat
  month : Nat
  day : Nat
  hour : Nat
  minute : Nat
  second : Nat
  microsecond : Nat
  tzOffset : Option Int
deriving DecidableEq, Repr

def isLeapYear (y : Nat) : Bool :=
  y % 4 = 0 && (y % 100 ≠ 0 || y % 400 = 0)

def daysInMonth (y m : Nat) : Nat :=
  if m = 2 then (if isLeapYear y then 29 else 28)
  else if m = 4 ∨ m = 6 ∨ m = 9 ∨ m = 11 then 30
  else 31

/-! ## `_parse_isoformat_date` : exactly `YYYY-MM-DD` -/

def parseIsoDate (cs : List Char) : Option (Nat × Nat × Nat) :=
  match parseFixed 4 cs with
  | none => none
  | some (y, r1) =>
    match r1 with
    | '-' :: r2 =>
      match parseFixed 2 r2 with
      | none => none
      | some (mo, r3) =>
        match r3 with
        | '-' :: r4 =>
          match parseFixed 2 r4 with
          | none => none
          | some (d, r5) => if r5 = [] then some (y, mo, d) else none
        | _ => none
    | _ => none

/-! ## `_parse_hh_mm_ss_ff` : `HH[:MM[:SS[.fff[fff]]]]`, whole-input -/

def parseHHMMSSFF (cs : List Char) : Option (Nat × Nat × Nat × Nat) :=
  match parseFixed 2 cs with
  | none => none
  | some (hh, r) =>
    match r with
    | [] => some (hh, 0, 0, 0)
    | ':' :: r1 =>
      match parseFixed 2 r1 with
      | none => none
      | some (mi, r2) =>
        match r2 with
        | [] => some (hh, mi, 0, 0)
        | ':' :: r3 =>
          match parseFixed 2 r3 with
          | none => none
          | some (ss, r4) =>
            match r4 with
            | [] => some (hh, mi, ss, 0)
            | '.' :: r5 =>
              if r5.all isDigitCh then
                if r5.length = 3 then some (hh, mi, ss, digitsVal r5 * 1000)
                else if r5.length = 6 then some (hh, mi, ss, digitsVal r5)
                else none
              else none
            | _ => none
        | _ => none
    | _ => none

/-- Offset suffix after the sign: must be `HH:MM`, `HH:MM:SS` or
`HH:MM:SS.ffffff` (lengths 5, 8, 15), validated to lie strictly inside
±24 hours (`timezone` constructor); result in signed microseconds. -/
def parseTZ (neg : Bool) (cs : List Char) : Option Int :=
  if cs.length = 5 ∨ cs.length = 8 ∨ cs.length = 15 then
    match parseHHMMSSFF cs with
    | none => none
    | some (h, mi, s, f) =>
      let micros : Int := ((h * 3600 + mi * 60 + s : Nat) : Int) * 1000000 + (f : Int)
      if micros < 86400000000 then some (if neg then -micros else micros) else none
  else none

/-- Trailing-timezone continuation of the time parser: the remainder must be
empty or a sign followed by a valid offset. -/
def finishTZ (hh mi ss ff : Nat) (cs : List Char) :
    Option (Nat × Nat × Nat × Nat × Option Int) :=
  match cs with
  | [] => some (hh, mi, ss, ff, none)
  | '+' :: rest => (parseTZ false rest).map fun o => (hh, mi, ss, ff, some o)
  | '-' :: rest => (parseTZ true rest).map fun o => (hh, mi, ss, ff, some o)
  | _ => none

/-- Embedding of `_parse_isoformat_time`: time components with optional fraction and
optional offset.  Structurally equivalent to CPython's split-at-first-sign
followed by `_parse_hh_mm_ss_ff` on both halves. -/
def parseIsoTime (cs : List Char) : Option (Nat × Nat × Nat × Nat × Option Int) :=
  match parseFixed 2 cs with
  | none => none
  | some (hh, r) =>
    match r with
    | ':' :: r1 =>
      match parseFixed 2 r1 with
      | none => none
      | some (mi, r2) =>
        match r2 with
        | ':' :: r3 =>
          match parseFixed 2 r3 with
          | none => none
          | some (ss, r4) =>
            match r4 with
            | '.' :: r5 =>
              let frac := r5.takeWhile isDigitCh
              let rest := r5.dropWhile isDigitCh
              if frac.length = 3 then finishTZ hh mi ss (digitsVal frac * 1000) rest
              else if frac.length = 6 then finishTZ hh mi ss (digitsVal frac) rest
              else none
            | _ => finishTZ hh mi ss 0 r4
        | _ => finishTZ hh mi 0 0 r2
    | _ => finishTZ hh 0 0 0 r

/-- Embedding of `datetime.fromisoformat`: date from the first 10 characters, the 11th
character (any separator) skipped, time from the rest; the `datetime`
constructor's range checks applied at the end. -/
def fromisoformat (cs : List Char) : Option PyDateTime :=
  match parseIsoDate (cs.take 10) with
  | none => none
  | some (y, mo, d) =>
    let t := cs.drop 11
    match (if t.isEmpty then some (0, 0, 0, 0, (none : Option Int)) else parseIsoTime t) with
    | none => none
    | some (hh, mi, ss, ff, tz) =>
      if 1 ≤ y ∧ y ≤ 9999 ∧ 1 ≤ mo ∧ mo ≤ 12 ∧ 1 ≤ d ∧ d ≤ daysInMonth y mo ∧
          hh ≤ 23 ∧ mi ≤ 59 ∧ ss ≤ 59 ∧ ff ≤ 999999 then
        some ⟨y, mo, d, hh, mi, ss, ff, tz⟩
      else none

/-- Model of `ts.replace('Z', '+00:00')`: every `Z` is expanded. -/
def replaceZ : List Char → List Char
  | [] => []
  | c :: cs =>
    if c = 'Z' then '+' :: '0' :: '0' :: ':' :: '0' :: '0' :: replaceZ cs
    else c :: replaceZ cs

/-- Embedding of `parse_timestamp` from `delta_sync.py`: `None`/empty input and any
parse failure yield `None`; otherwise the `Z` designator is rewritten to an
explicit offset and handed to `fromisoformat`. -/
def parse_timestamp (ts : Option String) : Option PyDateTime :=
  match ts with
  | none => none
  | some s => if s.data.isEmpty then none else fromisoformat (replaceZ s.data)

/-! ## Chronological value of a parsed checkpoint

Mongo compares BSON dates as absolute instants; `pymongo` encodes a naive
`datetime` as UTC.  `toEpochMicros` maps a parsed checkpoint to epoch
microseconds using the standard civil-days formula. -/

def daysFromCivil (y m d : Int) : Int :=
  let y' : Int := if m ≤ 2 then y - 1 else y
  let era : Int := (if 0 ≤ y' then y' else y' - 399) / 400
  let yoe : Int := y' - era * 400
  let mp : Int := (m + 9) % 12
  let doy : Int := (153 * mp + 2) / 5 + d - 1
  let doe : Int := yoe * 365 + yoe / 4 - yoe / 100 + doy
  era * 146097 + doe - 719468

def toEpochMicros (dt : PyDateTime) : Int :=
  daysFromCivil dt.year dt.month dt.day * 86400000000 +
    (dt.hour : Int) * 3600000000 + (dt.minute : Int) * 60000000 +
    (dt.second : Int) * 1000000 + (dt.microsecond : Int) - (dt.tzOffset.getD 0)

/-! ## Canonical renderings used to state the codec claims -/

def renderDate (y mo d : Nat) : List Char :=
  padDigits 4 y ++ '-' :: (padDigits 2 mo ++ '-' :: padDigits 2 d)

def renderTime (hh mi ss : Nat) : List Char :=
  padDigits 2 hh ++ ':' :: (padDigits 2 mi ++ ':' :: padDigits 2 ss)

/-- Rendering `YYYY-MM-DDTHH:MM:SSZ`. -/
def renderZulu (y mo d hh mi ss : Nat) : String :=
  ⟨renderDate y mo d ++ 'T' :: (renderTime hh mi ss ++ ['Z'])⟩

/-- Rendering `YYYY-MM-DDTHH:MM:SS±HH:MM`. -/
def renderOffset (y mo d hh mi ss : Nat) (neg : Bool) (oh om : Nat) : String :=
  ⟨renderDate y mo d ++ 'T' ::
    (renderTime hh mi ss ++ (if neg then '-' else '+') ::
      (padDigits 2 oh ++ ':' :: padDigits 2 om))⟩

/-! ## Document store model

One schemaless document type serves every collection; a field the stored
document lacks (or holds as null) is `none`.  Stored instants are epoch
microseconds. -/

structure Doc where
  id : String
  updated_at : Option Int := none
  deleted_at : Option Int := none
  name : Option String := none
  sort_order : Option Int := none
  created_at : Option Int := none
  user_id : Option String := none
deriving DecidableEq, Repr

structure Store where
  products : List Doc := []
  categories : List Doc := []
  orders : List Doc := []
  car_brands : List Doc := []
  car_models : List Doc := []
  product_brands : List Doc := []
deriving Repr

/-! Stable sort used to model Mongo's `$sort`/`.sort(...)` (ordering is a
display concern only; every theorem below uses it through permutation). -/

def insertSorted (le : α → α → Bool) (a : α) : List α → List α
  | [] => [a]
  | b :: bs => if le a b then a :: b :: bs else b :: insertSorted le a bs

def sortBy (le : α → α → Bool) : List α → List α
  | [] => []
  | a :: as => insertSorted le a (sortBy le as)

/-- BSON order on a nullable number: null sorts before every number. -/
def bsonLeInt : Option Int → Option Int → Bool
  | none, _ => true
  | some _, none => false
  | some a, some b => decide (a ≤ b)

/-- BSON order on a nullable string: null sorts before every string. -/
def bsonLeStr : Option String → Option String → Bool
  | none, _ => true
  | some _, none => false
  | some a, some b => decide (a ≤ b)

/-! ## Query filters shared by the endpoints -/

/-- Filter `{"deleted_at": None}` plus, when a checkpoint parsed,
`{"updated_at": {"$gt": checkpoint}}` (a document without the field never
matches `$gt`). -/
def changedMatch (cp : Option PyDateTime) (p : Doc) : Bool :=
  decide (p.deleted_at = none) &&
    match cp with
    | none => true
    | some c =>
      match p.updated_at with
      | some u => decide (toEpochMicros c < u)
      | none => false

/-- Filter `{"deleted_at": {"$gt": checkpoint}}`. -/
def deletedMatch (c : PyDateTime) (p : Doc) : Bool :=
  match p.deleted_at with
  | some dd => decide (toEpochMicros c < dd)
  | none => false

/-! ## Individual delta endpoints -/

structure ProductsResp where
  products : List Doc
  deleted_ids : List String
  server_time : Int
  is_delta : Bool
  total : Nat
deriving Repr

structure DeltaResp where
  items : List Doc
  deleted_ids : List String
  server_time : Int
  is_delta : Bool
deriving Repr

def products_limit_default : Nat := 1000

def products_limit_ceiling : Nat := 5000

/-- Endpoint `GET /delta-sync/products` body (the enrichment lookups keep one output
document per matched product, so the record set is filter+sort+limit). -/
def get_products_delta (st : Store) (now : Int) (last_sync : Option String)
    (limit : Nat) : ProductsResp :=
  let cp := parse_timestamp last_sync
  let matched := st.products.filter (changedMatch cp)
  let products := (sortBy (fun p q => bsonLeInt q.updated_at p.updated_at) matched).take limit
  let deleted_ids :=
    match cp with
    | some c => ((st.products.filter (deletedMatch c)).take 1000).map (·.id)
    | none => []
  { products, deleted_ids, server_time := now,
    is_delta := last_sync.isSome, total := products.length }

/-- FastAPI wrapper: `limit: int = Query(1000, le=5000)` — a request whose
limit exceeds the ceiling is rejected before the handler runs. -/
def get_products_delta_endpoint (st : Store) (now : Int) (last_sync : Option String)
    (limit : Option Nat) : Except Unit ProductsResp :=
  let l := limit.getD products_limit_default
  if l ≤ products_limit_ceiling then .ok (get_products_delta st now last_sync l)
  else .error ()

/-- Endpoint `GET /delta-sync/categories`: items sorted by (sort_order, name),
capped at 1000; tombstones capped at 500. -/
def get_categories_delta (st : Store) (now : Int) (last_sync : Option String) : DeltaResp :=
  let cp := parse_timestamp last_sync
  let matched := st.categories.filter (changedMatch cp)
  let items := (sortBy (fun p q =>
      bsonLeInt p.sort_order q.sort_order &&
        (!bsonLeInt q.sort_order p.sort_order || bsonLeStr p.name q.name)) matched).take 1000
  let deleted_ids :=
    match cp with
    | some c => ((st.categories.filter (deletedMatch c)).take 500).map (·.id)
    | none => []
  { items, deleted_ids, server_time := now, is_delta := last_sync.isSome }

/-- Order filter: `deleted_at == None`, plus `user_id` equality when a
non-empty user id is supplied (Python truthiness), plus the checkpoint. -/
def orderMatch (cp : Option PyDateTime) (uid : Option String) (o : Doc) : Bool :=
  changedMatch cp o &&
    match uid with
    | some u => if u = "" then true else decide (o.user_id = some u)
    | none => true

def orderDeletedMatch (c : PyDateTime) (uid : Option String) (o : Doc) : Bool :=
  deletedMatch c o &&
    match uid with
    | some u => if u = "" then true else decide (o.user_id = some u)
    | none => true

/-- Endpoint `GET /delta-sync/orders`: items sorted by created_at descending, capped
at 1000; tombstones capped at 500. -/
def get_orders_delta (st : Store) (now : Int) (last_sync : Option String)
    (user_id : Option String) : DeltaResp :=
  let cp := parse_timestamp last_sync
  let matched := st.orders.filter (orderMatch cp user_id)
  let items := (sortBy (fun p q => bsonLeInt q.created_at p.created_at) matched).take 1000
  let deleted_ids :=
    match cp with
    | some c => ((st.orders.filter (orderDeletedMatch c user_id)).take 500).map (·.id)
    | none => []
  { items, deleted_ids, server_time := now, is_delta := last_sync.isSome }

/-- Endpoint `GET /delta-sync/car-brands`: items capped at 500, tombstones at 100. -/
def get_car_brands_delta (st : Store) (now : Int) (last_sync : Option String) : DeltaResp :=
  let cp := parse_timestamp last_sync
  let matched := st.car_brands.filter (changedMatch cp)
  let items := (sortBy (fun p q => bsonLeStr p.name q.name) matched).take 500
  let deleted_ids :=
    match cp with
    | some c => ((st.car_brands.filter (deletedMatch c)).take 100).map (·.id)
    | none => []
  { items, deleted_ids, server_time := now, is_delta := last_sync.isSome }

/-- Endpoint `GET /delta-sync/car-models`: items capped at 1000, tombstones at 200. -/
def get_car_models_delta (st : Store) (now : Int) (last_sync : Option String) : DeltaResp :=
  let cp := parse_timestamp last_sync
  let matched := st.car_models.filter (changedMatch cp)
  let items := (sortBy (fun p q => bsonLeStr p.name q.name) matched).take 1000
  let deleted_ids :=
    match cp with
    | some c => ((st.car_models.filter (deletedMatch c)).take 200).map (·.id)
    | none => []
  { items, deleted_ids, server_time := now, is_delta := last_sync.isSome }

/-- Endpoint `GET /delta-sync/product-brands`: items capped at 500, tombstones at 100. -/
def get_product_brands_delta (st : Store) (now : Int) (last_sync : Option String) : DeltaResp :=
  let cp := parse_timestamp last_sync
  let matched := st.product_brands.filter (changedMatch cp)
  let items := (sortBy (fun p q => bsonLeStr p.name q.name) matched).take 500
  let deleted_ids :=
    match cp with
    | some c => ((st.product_brands.filter (deletedMatch c)).take 100).map (·.id)
    | none => []
  { items, deleted_ids, server_time := now, is_delta := last_sync.isSome }

/-! ## Combined endpoint `GET /delta-sync/full` -/

structure EntityDelta where
  items : List Doc
  deleted_ids : List String
deriving DecidableEq, Repr

structure FullResp where
  server_time : Int
  is_delta : Bool
  data : List (String × EntityDelta)
deriving Repr

def supportedTables : List String :=
  ["products", "categories", "car_brands", "car_models", "product_brands"]

def collOf (st : Store) : String → List Doc := fun t =>
  if t = "products" then st.products
  else if t = "categories" then st.categories
  else if t = "car_brands" then st.car_brands
  else if t = "car_models" then st.car_models
  else if t = "product_brands" then st.product_brands
  else []

/-- Python `str.strip()` (whitespace on both ends). -/
def isPySpace (c : Char) : Bool :=
  c = ' ' || c = '\t' || c = '\n' || c = '\r' || c = '\x0b' || c = '\x0c'

def pyStrip (s : String) : String :=
  ⟨((s.data.dropWhile isPySpace).reverse.dropWhile isPySpace).reverse⟩

/-- Python `str.split(sep)` for a one-character separator. -/
def pySplitGo (cur : List Char) : List Char → List String
  | [] => [⟨cur.reverse⟩]
  | c :: cs => if c = ',' then ⟨cur.reverse⟩ :: pySplitGo [] cs else pySplitGo (c :: cur) cs

def pySplitComma (s : String) : List String := pySplitGo [] s.data

/-- Per-type pass of the combined endpoint: filter (no sort), items capped
at 2000, tombstones at 500. -/
def fullEntry (st : Store) (cp : Option PyDateTime) (t : String) : EntityDelta :=
  { items := ((collOf st t).filter (changedMatch cp)).take 2000,
    deleted_ids :=
      match cp with
      | some c => (((collOf st t).filter (deletedMatch c)).take 500).map (·.id)
      | none => [] }

/-- Python dict assignment `result["data"][table] = ...`: replace in place
if the key exists, append otherwise. -/
def dictInsert (k : String) (v : EntityDelta) :
    List (String × EntityDelta) → List (String × EntityDelta)
  | [] => [(k, v)]
  | (k', v') :: rest => if k' = k then (k, v) :: rest else (k', v') :: dictInsert k v rest

def fullLoop (st : Store) (cp : Option PyDateTime) :
    List String → List (String × EntityDelta) → List (String × EntityDelta)
  | [], acc => acc
  | t :: rest, acc =>
    let t' := pyStrip t
    if supportedTables.contains t' then
      fullLoop st cp rest (dictInsert t' (fullEntry st cp t') acc)
    else
      fullLoop st cp rest acc

/-- Endpoint `GET /delta-sync/full`: `tables` empty or missing means the full
catalog (Python truthiness of the query string). -/
def get_full_delta (st : Store) (now : Int) (last_sync : Option String)
    (tables : Option String) : FullResp :=
  let requested :=
    match tables with
    | none => supportedTables
    | some t => if t = "" then supportedTables else pySplitComma t
  let cp := parse_timestamp last_sync
  { server_time := now, is_delta := last_sync.isSome,
    data := fullLoop st cp requested [] }

/-! ## Notification service model

`create_notification` builds a record, inserts it into `db.notifications`,
then pushes it through the WebSocket manager.  Store/registry behaviour is
an oracle (`NotifCtx`): a per-user flag says whether `insert_one` or
`manager.send_notification` raises for that recipient.  The run is recorded
as an event trace; a raised exception propagates to the caller exactly as in
Python (there is no try/except anywhere on this path).  `uuid4` is modelled
by a fresh natural-number supply; `datetime.now` by `NotifCtx.now`.  The
`extra_data` keys used by the three triggers are disjoint from the core
record fields, so `notification.update(extra_data)` never rewrites them and
the core fields can be structure fields. -/

structure Notification where
  id : Nat
  user_id : String
  title : String
  message : String
  ntype : String
  read : Bool
  created_at : Int
  extra : List (String × Option String)
deriving DecidableEq, Repr

structure NotifCtx where
  insert_fails : String → Bool
  push_fails : String → Bool
  now : Int

inductive NEvent where
  | insert (n : Notification)
  | push (uid : String) (n : Notification)
deriving DecidableEq, Repr

deriving instance DecidableEq for Except

/-- Embedding of `create_notification(user_id, title, message, notif_type, extra_data)`:
persist, then live-push; any failure escapes to the caller. -/
def create_notification (ctx : NotifCtx) (fresh : Nat) (user_id title message ntype : String)
    (extra : List (String × Option String)) : List NEvent × Except Unit Notification :=
  let n : Notification :=
    { id := fresh, user_id, title, message, ntype, read := false,
      created_at := ctx.now, extra }
  if ctx.insert_fails user_id then ([], .error ())
  else if ctx.push_fails user_id then ([.insert n], .error ())
  else ([.insert n, .push user_id n], .ok n)

/-! ### Order-status notifications -/

/-- Table `ORDER_STATUS_MESSAGES`: status → (en, ar, type). -/
def orderStatusMessages (status : String) : Option (String × String × String) :=
  if status = "pending" then
    some ("Your order {order_number} has been received and is being processed",
      "تم استلام طلبك {order_number} وجاري معالجته", "info")
  else if status = "confirmed" then
    some ("Your order {order_number} has been confirmed",
      "تم تأكيد طلبك {order_number}", "info")
  else if status = "preparing" then
    some ("Your order {order_number} is being prepared",
      "جاري تحضير طلبك {order_number}", "info")
  else if status = "shipped" then
    some ("Your order {order_number} has been shipped",
      "تم شحن طلبك {order_number}", "info")
  else if status = "out_for_delivery" then
    some ("Your order {order_number} is out for delivery",
      "طلبك {order_number} في الطريق إليك", "info")
  else if status = "delivered" then
    some ("Your order {order_number} has been successfully completed",
      "تم إكمال طلبك {order_number} بنجاح", "success")
  else if status = "completed" then
    some ("Your order {order_number} has been successfully completed",
      "تم إكمال طلبك {order_number} بنجاح", "success")
  else if status = "cancelled" then
    some ("Your order {order_number} has been cancelled",
      "تم إلغاء طلبك {order_number}", "warning")
  else none

/-- Table `title_templates` of `create_order_status_notification`: status → (en, ar). -/
def orderTitleTemplates (status : String) : Option (String × String) :=
  if status = "delivered" then some ("Order Delivered!", "تم التوصيل!")
  else if status = "completed" then some ("Order Completed!", "تم إكمال الطلب!")
  else if status = "cancelled" then some ("Order Cancelled", "تم إلغاء الطلب")
  else if status = "shipped" then some ("Order Shipped", "تم الشحن")
  else if status = "preparing" then some ("Order Being Prepared", "جاري التحضير")
  else if status = "out_for_delivery" then some ("Out for Delivery", "في الطريق")
  else none

/-- Model of `status.replace('_', ' ')`. -/
def humanizeStatus (s : String) : String :=
  ⟨s.data.map fun c => if c = '_' then ' ' else c⟩

/-- Model of `"...".format(order_number=v)` on the templates above: substitute every
occurrence of the named placeholder; the substituted value is not rescanned. -/
def fmtOrderNumberGo (v : List Char) : Nat → List Char → List Char
  | 0, rest => rest
  | fuel + 1, xs =>
    match xs with
    | [] => []
    | c :: rest =>
      if c = '{' then
        match rest with
        | 'o' :: 'r' :: 'd' :: 'e' :: 'r' :: '_' :: 'n' :: 'u' :: 'm' :: 'b' :: 'e' ::
            'r' :: '}' :: rest2 => v ++ fmtOrderNumberGo v fuel rest2
        | _ => c :: fmtOrderNumberGo v fuel rest
      else c :: fmtOrderNumberGo v fuel rest

def fmtOrderNumber (v : String) (template : String) : String :=
  ⟨fmtOrderNumberGo v.data template.data.length template.data⟩

/-- Lookup `status_config.get(language, status_config["en"])`: the dict literal has
keys `en`, `ar` and `type`, so the language string `"type"` hits the
severity entry. -/
def cfgGetMessage (cfg : String × String × String) (language : String) : String :=
  if language = "en" then cfg.1
  else if language = "ar" then cfg.2.1
  else if language = "type" then cfg.2.2
  else cfg.1

/-- Lookup `title_config.get(language, title_config["en"])` over an `{en, ar}` dict. -/
def cfgGetTitle (cfg : String × String) (language : String) : String :=
  if language = "en" then cfg.1
  else if language = "ar" then cfg.2
  else cfg.1

/-- The pure rendering half of `create_order_status_notification`:
(title, message, severity) for a given order number, status and language. -/
def renderOrderStatus (order_number status language : String) : String × String × String :=
  let cfg :=
    match orderStatusMessages status with
    | some c => c
    | none =>
      ("Your order " ++ order_number ++ " status has been updated to " ++
          humanizeStatus status,
        "تم تحديث حالة طلبك " ++ order_number ++ " إلى " ++ humanizeStatus status,
        "info")
  let message := fmtOrderNumber order_number (cfgGetMessage cfg language)
  let titleCfg := (orderTitleTemplates status).getD ("Order Update", "تحديث الطلب")
  (cfgGetTitle titleCfg language, message, cfg.2.2)

/-- Embedding of `create_order_status_notification`: render, then dispatch to the single
recipient through `create_notification`. -/
def create_order_status_notification (ctx : NotifCtx) (fresh : Nat)
    (user_id order_number status : String) (order_id : Option String)
    (language : String) : List NEvent × Except Unit Notification :=
  let r := renderOrderStatus order_number status language
  create_notification ctx fresh user_id r.1 r.2.1 r.2.2
    [("order_id", order_id), ("order_number", some order_number),
      ("status", some status), ("notification_category", some "order")]

/-! ### Broadcast fan-out loops

`create_promotional_notification` and `create_admin_activity_notification`
run the same sequential per-recipient loop; `fanLoop` is that loop, with the
per-user rendering passed in.  A raised exception aborts the loop with the
events accumulated so far, exactly as the unguarded `await` does. -/

structure User where
  id : String
  preferred_language : Option String := none
  deleted_at : Option Int := none
  role : Option String := none
deriving DecidableEq, Repr

def fanLoop (ctx : NotifCtx) (mkTitle mkMessage : User → String) (ntype : String)
    (extra : List (String × Option String)) :
    Nat → List User → List NEvent × Except Unit (List Notification)
  | _, [] => ([], .ok [])
  | fresh, u :: rest =>
    let (evs, res) := create_notification ctx fresh u.id (mkTitle u) (mkMessage u) ntype extra
    match res with
    | .error e => (evs, .error e)
    | .ok n =>
      let (evs2, res2) := fanLoop ctx mkTitle mkMessage ntype extra (fresh + 1) rest
      (evs ++ evs2, res2.map (n :: ·))

/-- Model of `user.get("preferred_language", "ar")`. -/
def userLang (u : User) : String := u.preferred_language.getD "ar"

def promoExtra (image_url promotion_id bundle_id target_url : Option String) :
    List (String × Option String) :=
  [("notification_category", some "promotion"), ("image_url", image_url),
      ("target_url", target_url)] ++
    (match promotion_id with | some p => [("promotion_id", some p)] | none => []) ++
    (match bundle_id with | some b => [("bundle_id", some b)] | none => [])

/-- Embedding of `create_promotional_notification`: all non-deleted users (capped by
`to_list(10000)`), localized per stored preference, severity `promo`. -/
def create_promotional_notification (ctx : NotifCtx) (users : List User) (fresh : Nat)
    (title title_ar message message_ar : String)
    (image_url promotion_id bundle_id target_url : Option String) :
    List NEvent × Except Unit (List Notification) :=
  let all_users := (users.filter fun u => decide (u.deleted_at = none)).take 10000
  fanLoop ctx
    (fun u => if userLang u = "ar" then title_ar else title)
    (fun u => if userLang u = "ar" then message_ar else message)
    "promo" (promoExtra image_url promotion_id bundle_id target_url)
    fresh all_users

def adminRoleMatch (u : User) : Bool :=
  (u.role = some "owner" || u.role = some "partner" || u.role = some "admin") &&
    decide (u.deleted_at = none)

/-- Embedding of `create_admin_activity_notification`: all non-deleted owner/partner/admin
users (capped by `to_list(1000)`), localized per stored preference,
severity `admin`. -/
def create_admin_activity_notification (ctx : NotifCtx) (users : List User) (fresh : Nat)
    (activity_type title_en title_ar message_en message_ar : String)
    (extra : List (String × Option String)) :
    List NEvent × Except Unit (List Notification) :=
  let admin_users := (users.filter adminRoleMatch).take 1000
  fanLoop ctx
    (fun u => if userLang u = "ar" then title_ar else title_en)
    (fun u => if userLang u = "ar" then message_ar else message_en)
    "admin"
    ([("notification_category", some "admin_activity"),
        ("activity_type", some activity_type)] ++ extra)
    fresh admin_users

/-! ## Digit-run lemmas -/

theorem isDigitCh_digitCh {d : Nat} (h : d < 10) : isDigitCh (digitCh d) = true := by
  interval_cases d <;> decide

theorem digitVal_digitCh {d : Nat} (h : d < 10) : digitVal (digitCh d) = d := by
  interval_cases d <;> decide

theorem padDigits_length (k n : Nat) : (padDigits k n).length = k := by
  induction k generalizing n with
  | zero => rfl
  | succ k ih => simp [padDigits, ih]

theorem isDigitCh_of_mem_padDigits {k n : Nat} (hn : n < 10 ^ k) {c : Char}
    (hc : c ∈ padDigits k n) : isDigitCh c = true := by
  induction k generalizing n with
  | zero => simp [padDigits] at hc
  | succ k ih =>
    simp only [padDigits, List.mem_cons] at hc
    have hn' : n < 10 ^ k * 10 := by rw [pow_succ] at hn; omega
    rcases hc with rfl | hc
    · exact isDigitCh_digitCh (Nat.div_lt_of_lt_mul hn')
    · exact ih (Nat.mod_lt _ (Nat.pos_pow_of_pos _ (by norm_num))) hc

theorem ne_of_isDigitCh {c : Char} (h : isDigitCh c = true) {c' : Char}
    (h' : 57 < c'.toNat ∨ c'.toNat < 48) : c ≠ c' := by
  rintro rfl
  simp only [isDigitCh, Bool.and_eq_true, decide_eq_true_eq] at h
  omega

theorem parseFixedGo_pad (k : Nat) : ∀ (acc n : Nat) (rest : List Char), n < 10 ^ k →
    parseFixedGo k acc (padDigits k n ++ rest) = some (acc * 10 ^ k + n, rest) := by
  induction k with
  | zero => intro acc n rest h; interval_cases n; simp [padDigits, parseFixedGo]
  | succ k ih =>
    intro acc n rest h
    have h' : n < 10 ^ k * 10 := by rw [pow_succ] at h; omega
    have hd : n / 10 ^ k < 10 := Nat.div_lt_of_lt_mul h'
    have hm : n % 10 ^ k < 10 ^ k := Nat.mod_lt _ (Nat.pos_pow_of_pos _ (by norm_num))
    simp only [padDigits, List.cons_append, parseFixedGo, isDigitCh_digitCh hd, if_true,
      digitVal_digitCh hd, ih _ _ _ hm]
    have h2 : n / 10 ^ k * 10 ^ k + n % 10 ^ k = n := Nat.div_add_mod' n (10 ^ k)
    congr 2
    calc (acc * 10 + n / 10 ^ k) * 10 ^ k + n % 10 ^ k
        = acc * (10 ^ k * 10) + (n / 10 ^ k * 10 ^ k + n % 10 ^ k) := by ring
      _ = acc * 10 ^ (k + 1) + n := by rw [h2, pow_succ]

theorem parseFixed_pad {k n : Nat} (rest : List Char) (h : n < 10 ^ k) :
    parseFixed k (padDigits k n ++ rest) = some (n, rest) := by
  simpa using parseFixedGo_pad k 0 n rest h

/-! ## `replace('Z', '+00:00')` lemmas -/

theorem replaceZ_append (xs ys : List Char) :
    replaceZ (xs ++ ys) = replaceZ xs ++ replaceZ ys := by
  induction xs with
  | nil => rfl
  | cons c cs ih =>
    by_cases h : c = 'Z' <;> simp [replaceZ, h, ih]

theorem replaceZ_id {xs : List Char} (h : ∀ c ∈ xs, c ≠ 'Z') : replaceZ xs = xs := by
  induction xs with
  | nil => rfl
  | cons c cs ih =>
    have hc : c ≠ 'Z' := h c (List.mem_cons_self c cs)
    simp [replaceZ, hc, ih fun d hd => h d (List.mem_cons_of_mem c hd)]

theorem ne_Z_of_mem_padDigits {k n : Nat} (hn : n < 10 ^ k) {c : Char}
    (hc : c ∈ padDigits k n) : c ≠ 'Z' :=
  ne_of_isDigitCh (isDigitCh_of_mem_padDigits hn hc) (by left; decide)

/-! ## Round-trips of the canonical renderings through the codec -/

theorem renderDate_length (y mo d : Nat) : (renderDate y mo d).length = 10 := by
  simp [renderDate, padDigits_length]

theorem parseIsoDate_renderDate {y mo d : Nat} (hy : y < 10000) (hmo : mo < 100)
    (hd : d < 100) : parseIsoDate (renderDate y mo d) = some (y, mo, d) := by
  have h1 : parseFixed 4 (padDigits 4 y ++ '-' :: (padDigits 2 mo ++ '-' :: padDigits 2 d)) =
      some (y, '-' :: (padDigits 2 mo ++ '-' :: padDigits 2 d)) :=
    parseFixed_pad _ (by norm_num; omega)
  have h2 : parseFixed 2 (padDigits 2 mo ++ '-' :: padDigits 2 d) =
      some (mo, '-' :: padDigits 2 d) := parseFixed_pad _ (by norm_num; omega)
  have h3 : parseFixed 2 (padDigits 2 d) = some (d, []) := by
    have := parseFixed_pad ([] : List Char) (k := 2) (n := d) (by norm_num; omega)
    simpa using this
  simp [parseIsoDate, renderDate, h1, h2, h3]

theorem parseIsoTime_render_sign {hh mi ss : Nat} (hhh : hh < 100) (hmi : mi < 100)
    (hss : ss < 100) {c : Char} (hc : c = '+' ∨ c = '-') (rest : List Char) :
    parseIsoTime (renderTime hh mi ss ++ c :: rest) = finishTZ hh mi ss 0 (c :: rest) := by
  have h1 : parseFixed 2 (padDigits 2 hh ++
        ':' :: (padDigits 2 mi ++ ':' :: (padDigits 2 ss ++ c :: rest))) =
      some (hh, ':' :: (padDigits 2 mi ++ ':' :: (padDigits 2 ss ++ c :: rest))) :=
    parseFixed_pad _ (by norm_num; omega)
  have h2 : parseFixed 2 (padDigits 2 mi ++ ':' :: (padDigits 2 ss ++ c :: rest)) =
      some (mi, ':' :: (padDigits 2 ss ++ c :: rest)) :=
    parseFixed_pad _ (by norm_num; omega)
  have h3 : parseFixed 2 (padDigits 2 ss ++ c :: rest) = some (ss, c :: rest) :=
    parseFixed_pad _ (by norm_num; omega)
  rcases hc with rfl | rfl <;>
    · simp only [renderTime, List.cons_append, List.append_assoc]
      simp [parseIsoTime, h1, h2, h3]

theorem noZ_renderDate {y mo d : Nat} (hy : y < 10000) (hmo : mo < 100) (hd : d < 100) :
    ∀ c ∈ renderDate y mo d, c ≠ 'Z' := by
  intro c hc
  simp only [renderDate, List.mem_append, List.mem_cons] at hc
  rcases hc with h | rfl | h | rfl | h
  · exact ne_Z_of_mem_padDigits (by norm_num; omega) h
  · decide
  · exact ne_Z_of_mem_padDigits (by norm_num; omega) h
  · decide
  · exact ne_Z_of_mem_padDigits (by norm_num; omega) h

theorem noZ_renderTime {hh mi ss : Nat} (hhh : hh < 100) (hmi : mi < 100) (hss : ss < 100) :
    ∀ c ∈ renderTime hh mi ss, c ≠ 'Z' := by
  intro c hc
  simp only [renderTime, List.mem_append, List.mem_cons] at hc
  rcases hc with h | rfl | h | rfl | h
  · exact ne_Z_of_mem_padDigits (by norm_num; omega) h
  · decide
  · exact ne_Z_of_mem_padDigits (by norm_num; omega) h
  · decide
  · exact ne_Z_of_mem_padDigits (by norm_num; omega) h

theorem replaceZ_cons_ne {c : Char} (h : c ≠ 'Z') (cs : List Char) :
    replaceZ (c :: cs) = c :: replaceZ cs := by
  simp [replaceZ, h]

/-- The codec on a canonical `Z`-suffixed instant. -/
theorem parse_renderZulu {y mo d hh mi ss : Nat}
    (hy1 : 1 ≤ y) (hy2 : y ≤ 9999) (hmo1 : 1 ≤ mo) (hmo2 : mo ≤ 12)
    (hd1 : 1 ≤ d) (hd2 : d ≤ daysInMonth y mo)
    (hhh : hh ≤ 23) (hmi : mi ≤ 59) (hss : ss ≤ 59) :
    parse_timestamp (some (renderZulu y mo d hh mi ss)) =
      some ⟨y, mo, d, hh, mi, ss, 0, some 0⟩ := by
  have hy : y < 10000 := by omega
  have hmo : mo < 100 := by omega
  have hd : d < 100 := by
    have : daysInMonth y mo ≤ 31 := by
      unfold daysInMonth
      split
      · split <;> omega
      · split <;> omega
    omega
  have hhh' : hh < 100 := by omega
  have hmi' : mi < 100 := by omega
  have hss' : ss < 100 := by omega
  have hdata : (renderZulu y mo d hh mi ss).data =
      renderDate y mo d ++ 'T' :: (renderTime hh mi ss ++ ['Z']) := rfl
  have hrep : replaceZ (renderDate y mo d ++ 'T' :: (renderTime hh mi ss ++ ['Z'])) =
      renderDate y mo d ++ 'T' ::
        (renderTime hh mi ss ++ '+' :: '0' :: '0' :: ':' :: '0' :: '0' :: []) := by
    rw [replaceZ_append, replaceZ_id (noZ_renderDate hy hmo hd),
      replaceZ_cons_ne (by decide), replaceZ_append,
      replaceZ_id (noZ_renderTime hhh' hmi' hss')]
    rfl
  have hne : ((renderZulu y mo d hh mi ss).data).isEmpty = false := by
    rw [hdata]
    simp [renderDate, padDigits]
  rw [parse_timestamp, hne, if_neg (by simp), hdata, hrep]
  have htake : (renderDate y mo d ++ 'T' ::
      (renderTime hh mi ss ++ '+' :: '0' :: '0' :: ':' :: '0' :: '0' :: [])).take 10 =
      renderDate y mo d := List.take_left' (renderDate_length y mo d)
  have hassoc : renderDate y mo d ++ 'T' ::
      (renderTime hh mi ss ++ '+' :: '0' :: '0' :: ':' :: '0' :: '0' :: []) =
      (renderDate y mo d ++ ['T']) ++
        (renderTime hh mi ss ++ '+' :: '0' :: '0' :: ':' :: '0' :: '0' :: []) := by
    simp
  have hdrop : (renderDate y mo d ++ 'T' ::
      (renderTime hh mi ss ++ '+' :: '0' :: '0' :: ':' :: '0' :: '0' :: [])).drop 11 =
      renderTime hh mi ss ++ '+' :: '0' :: '0' :: ':' :: '0' :: '0' :: [] := by
    rw [hassoc]
    exact List.drop_left' (by simp [renderDate_length])
  have htime : parseIsoTime (renderTime hh mi ss ++
      '+' :: '0' :: '0' :: ':' :: '0' :: '0' :: []) = some (hh, mi, ss, 0, some 0) := by
    rw [parseIsoTime_render_sign hhh' hmi' hss' (Or.inl rfl)]
    have hz : parseTZ false ('0' :: '0' :: ':' :: '0' :: '0' :: []) = some 0 := by decide
    simp [finishTZ, hz]
  have hempty : (renderTime hh mi ss ++
      '+' :: '0' :: '0' :: ':' :: '0' :: '0' :: []).isEmpty = false := by
    simp [renderTime, padDigits]
  rw [fromisoformat, htake, parseIsoDate_renderDate hy hmo hd]
  simp only [hdrop, hempty, Bool.false_eq_true, if_false, htime]
  rw [if_pos]
  exact ⟨hy1, hy2, hmo1, hmo2, hd1, hd2, hhh, hmi, hss, by omega⟩

/-- The codec on a canonical instant with explicit offset. -/
theorem parse_renderOffset {y mo d hh mi ss oh om : Nat} {neg : Bool}
    (hy1 : 1 ≤ y) (hy2 : y ≤ 9999) (hmo1 : 1 ≤ mo) (hmo2 : mo ≤ 12)
    (hd1 : 1 ≤ d) (hd2 : d ≤ daysInMonth y mo)
    (hhh : hh ≤ 23) (hmi : mi ≤ 59) (hss : ss ≤ 59)
    (hoh : oh ≤ 99) (hom : om ≤ 99) (hoff : oh * 60 + om < 1440) :
    parse_timestamp (some (renderOffset y mo d hh mi ss neg oh om)) =
      some ⟨y, mo, d, hh, mi, ss, 0,
        some (if neg then -(((oh * 3600 + om * 60 : Nat) : Int) * 1000000)
          else ((oh * 3600 + om * 60 : Nat) : Int) * 1000000)⟩ := by
  have hy : y < 10000 := by omega
  have hmo : mo < 100 := by omega
  have hd : d < 100 := by
    have : daysInMonth y mo ≤ 31 := by
      unfold daysInMonth
      split
      · split <;> omega
      · split <;> omega
    omega
  have hhh' : hh < 100 := by omega
  have hmi' : mi < 100 := by omega
  have hss' : ss < 100 := by omega
  have hsign : (if neg then '-' else '+') = '-' ∨ (if neg then '-' else '+') = '+' := by
    cases neg <;> simp
  have hdata : (renderOffset y mo d hh mi ss neg oh om).data =
      renderDate y mo d ++ 'T' ::
        (renderTime hh mi ss ++ (if neg then '-' else '+') ::
          (padDigits 2 oh ++ ':' :: padDigits 2 om)) := rfl
  have hnoZ : ∀ c ∈ renderDate y mo d ++ 'T' ::
      (renderTime hh mi ss ++ (if neg then '-' else '+') ::
        (padDigits 2 oh ++ ':' :: padDigits 2 om)), c ≠ 'Z' := by
    intro c hc
    simp only [List.mem_append, List.mem_cons] at hc
    rcases hc with h | rfl | h | rfl | h | rfl | h
    · exact noZ_renderDate hy hmo hd c h
    · decide
    · exact noZ_renderTime hhh' hmi' hss' c h
    · rcases hsign with h' | h' <;> rw [h'] <;> decide
    · exact ne_Z_of_mem_padDigits (by norm_num; omega) h
    · decide
    · exact ne_Z_of_mem_padDigits (by norm_num; omega) h
  have hne : ((renderOffset y mo d hh mi ss neg oh om).data).isEmpty = false := by
    rw [hdata]
    simp [renderDate, padDigits]
  rw [parse_timestamp, hne, if_neg (by simp), hdata, replaceZ_id hnoZ]
  have htake : (renderDate y mo d ++ 'T' ::
      (renderTime hh mi ss ++ (if neg then '-' else '+') ::
        (padDigits 2 oh ++ ':' :: padDigits 2 om))).take 10 =
      renderDate y mo d := List.take_left' (renderDate_length y mo d)
  have hassoc : renderDate y mo d ++ 'T' ::
      (renderTime hh mi ss ++ (if neg then '-' else '+') ::
        (padDigits 2 oh ++ ':' :: padDigits 2 om)) =
      (renderDate y mo d ++ ['T']) ++
        (renderTime hh mi ss ++ (if neg then '-' else '+') ::
          (padDigits 2 oh ++ ':' :: padDigits 2 om)) := by
    simp
  have hdrop : (renderDate y mo d ++ 'T' ::
      (renderTime hh mi ss ++ (if neg then '-' else '+') ::
        (padDigits 2 oh ++ ':' :: padDigits 2 om))).drop 11 =
      renderTime hh mi ss ++ (if neg then '-' else '+') ::
        (padDigits 2 oh ++ ':' :: padDigits 2 om) := by
    rw [hassoc]
    exact List.drop_left' (by simp [renderDate_length])
  have hTZval : parseTZ neg (padDigits 2 oh ++ ':' :: padDigits 2 om) =
      some (if neg then -(((oh * 3600 + om * 60 : Nat) : Int) * 1000000)
        else ((oh * 3600 + om * 60 : Nat) : Int) * 1000000) := by
    have hlen : (padDigits 2 oh ++ ':' :: padDigits 2 om).length = 5 := by
      simp [padDigits_length]
    have hp1 : parseFixed 2 (padDigits 2 oh ++ ':' :: padDigits 2 om) =
        some (oh, ':' :: padDigits 2 om) := parseFixed_pad _ (by norm_num; omega)
    have hp2 : parseFixed 2 (padDigits 2 om) = some (om, []) := by
      have := parseFixed_pad ([] : List Char) (k := 2) (n := om) (by norm_num; omega)
      simpa using this
    simp only [parseTZ, hlen, parseHHMMSSFF, hp1, hp2]
    have e1 : ((oh * 3600 + om * 60 + 0 : Nat) : Int) * 1000000 + ((0 : Nat) : Int) =
        ((oh * 3600 + om * 60 : Nat) : Int) * 1000000 := by push_cast; ring
    rw [if_pos (Or.inl trivial), e1,
      if_pos (show ((oh * 3600 + om * 60 : Nat) : Int) * 1000000 < 86400000000 by
        push_cast; omega)]
  have htz : finishTZ hh mi ss 0 ((if neg then '-' else '+') ::
      (padDigits 2 oh ++ ':' :: padDigits 2 om)) =
      some (hh, mi, ss, 0,
        some (if neg then -(((oh * 3600 + om * 60 : Nat) : Int) * 1000000)
          else ((oh * 3600 + om * 60 : Nat) : Int) * 1000000)) := by
    cases neg <;> simp [finishTZ, hTZval]
  have htime : parseIsoTime (renderTime hh mi ss ++ (if neg then '-' else '+') ::
      (padDigits 2 oh ++ ':' :: padDigits 2 om)) =
      some (hh, mi, ss, 0,
        some (if neg then -(((oh * 3600 + om * 60 : Nat) : Int) * 1000000)
          else ((oh * 3600 + om * 60 : Nat) : Int) * 1000000)) := by
    rw [parseIsoTime_render_sign hhh' hmi' hss' hsign.symm, htz]
  have hempty : (renderTime hh mi ss ++ (if neg then '-' else '+') ::
      (padDigits 2 oh ++ ':' :: padDigits 2 om)).isEmpty = false := by
    simp [renderTime, padDigits]
  rw [fromisoformat, htake, parseIsoDate_renderDate hy hmo hd]
  simp only [hdrop, hempty, Bool.false_eq_true, if_false, htime]
  rw [if_pos]
  exact ⟨hy1, hy2, hmo1, hmo2, hd1, hd2, hhh, hmi, hss, by omega⟩

/-! ## Sorting and dictionary helper lemmas -/

theorem insertSorted_perm (le : α → α → Bool) (a : α) (l : List α) :
    (insertSorted le a l).Perm (a :: l) := by
  induction l with
  | nil => exact List.Perm.refl _
  | cons b bs ih =>
    by_cases h : le a b
    · simp [insertSorted, h]
    · simp only [insertSorted, h, if_false]
      exact (ih.cons b).trans (List.Perm.swap a b bs)

theorem sortBy_perm (le : α → α → Bool) (l : List α) : (sortBy le l).Perm l := by
  induction l with
  | nil => exact List.Perm.refl _
  | cons a as ih => exact (insertSorted_perm le a (sortBy le as)).trans (ih.cons a)

theorem mem_of_mem_sortBy {le : α → α → Bool} {l : List α} {a : α}
    (h : a ∈ sortBy le l) : a ∈ l := (sortBy_perm le l).mem_iff.1 h

theorem mem_dictInsert {k : String} {v : EntityDelta} {l : List (String × EntityDelta)}
    {p : String × EntityDelta} (h : p ∈ dictInsert k v l) : p = (k, v) ∨ p ∈ l := by
  induction l with
  | nil => simpa [dictInsert] using h
  | cons q rest ih =>
    by_cases hk : q.1 = k
    · simp only [dictInsert] at h
      rw [if_pos hk] at h
      rcases List.mem_cons.1 h with heq | h
      · exact Or.inl heq
      · exact Or.inr (List.mem_cons_of_mem q h)
    · simp only [dictInsert] at h
      rw [if_neg hk] at h
      rcases List.mem_cons.1 h with heq | h
      · exact Or.inr (by rw [heq]; simp)
      · rcases ih h with h' | h'
        · exact Or.inl h'
        · exact Or.inr (List.mem_cons_of_mem q h')

/-- Keys written into `data` by the combined-endpoint loop are supported
table names (an unknown requested name writes nothing). -/
theorem fullLoop_keys (st : Store) (cp : Option PyDateTime) :
    ∀ (req : List String) (acc : List (String × EntityDelta)),
      (∀ p ∈ acc, p.1 ∈ supportedTables) →
      ∀ p ∈ fullLoop st cp req acc, p.1 ∈ supportedTables := by
  intro req
  induction req with
  | nil => intro acc hacc p hp; exact hacc p hp
  | cons t rest ih =>
    intro acc hacc p hp
    simp only [fullLoop] at hp
    by_cases hs : supportedTables.contains (pyStrip t)
    · rw [if_pos hs] at hp
      refine ih _ ?_ p hp
      intro q hq
      rcases mem_dictInsert hq with rfl | h
      · exact List.mem_of_elem_eq_true hs
      · exact hacc q h
    · rw [if_neg hs] at hp
      exact ih _ hacc p hp

/-- With no checkpoint the loop writes an empty tombstone list for every
processed type. -/
theorem fullLoop_deleted_nil (st : Store) :
    ∀ (req : List String) (acc : List (String × EntityDelta)),
      (∀ p ∈ acc, p.2.deleted_ids = []) →
      ∀ p ∈ fullLoop st none req acc, p.2.deleted_ids = [] := by
  intro req
  induction req with
  | nil => intro acc hacc p hp; exact hacc p hp
  | cons t rest ih =>
    intro acc hacc p hp
    simp only [fullLoop] at hp
    by_cases hs : supportedTables.contains (pyStrip t)
    · rw [if_pos hs] at hp
      refine ih _ ?_ p hp
      intro q hq
      rcases mem_dictInsert hq with rfl | h
      · rfl
      · exact hacc q h
    · rw [if_neg hs] at hp
      exact ih _ hacc p hp

/-! ## Notification trace lemmas -/

def insertedIds (evs : List NEvent) : List Nat :=
  evs.filterMap fun e =>
    match e with
    | .insert n => some n.id
    | .push _ _ => none

/-- Traces in which every live push immediately follows the persist of the
same record to its own recipient. -/
inductive OkEvents : List NEvent → Prop
  | nil : OkEvents []
  | insOnly (n : Notification) {rest : List NEvent} :
      OkEvents rest → OkEvents (.insert n :: rest)
  | insPush (n : Notification) {rest : List NEvent} :
      OkEvents rest → OkEvents (.insert n :: .push n.user_id n :: rest)

/-- The record built at the top of `create_notification`. -/
def mkNotif (ctx : NotifCtx) (fresh : Nat) (uid t m ty : String)
    (ex : List (String × Option String)) : Notification :=
  { id := fresh, user_id := uid, title := t, message := m, ntype := ty,
    read := false, created_at := ctx.now, extra := ex }

theorem create_notification_cases (ctx : NotifCtx) (fresh : Nat)
    (uid t m ty : String) (ex : List (String × Option String)) :
    (create_notification ctx fresh uid t m ty ex = ([], .error ()) ∧
        ctx.insert_fails uid = true) ∨
      (create_notification ctx fresh uid t m ty ex =
          ([.insert (mkNotif ctx fresh uid t m ty ex)], .error ()) ∧
        ctx.insert_fails uid = false ∧ ctx.push_fails uid = true) ∨
      (create_notification ctx fresh uid t m ty ex =
          ([.insert (mkNotif ctx fresh uid t m ty ex),
            .push uid (mkNotif ctx fresh uid t m ty ex)],
            .ok (mkNotif ctx fresh uid t m ty ex)) ∧
        ctx.insert_fails uid = false ∧ ctx.push_fails uid = false) := by
  by_cases hI : ctx.insert_fails uid
  · exact Or.inl ⟨by simp [create_notification, hI], hI⟩
  · by_cases hP : ctx.push_fails uid
    · exact Or.inr (Or.inl ⟨by simp [create_notification, mkNotif, hI, hP],
        by simpa using hI, hP⟩)
    · exact Or.inr (Or.inr ⟨by simp [create_notification, mkNotif, hI, hP],
        by simpa using hI, by simpa using hP⟩)

/-- Per-run structural invariant of the broadcast loop: well-ordered trace,
consecutive fresh identifiers, `read = False` and a stamped `created_at` on
every persisted record. -/
theorem fanLoop_spec (ctx : NotifCtx) (mkT mkM : User → String) (ty : String)
    (ex : List (String × Option String)) :
    ∀ (users : List User) (fresh : Nat),
      OkEvents (fanLoop ctx mkT mkM ty ex fresh users).1 ∧
      (∃ k, insertedIds (fanLoop ctx mkT mkM ty ex fresh users).1 = List.range' fresh k) ∧
      (∀ n, NEvent.insert n ∈ (fanLoop ctx mkT mkM ty ex fresh users).1 →
        n.read = false ∧ n.created_at = ctx.now ∧ n.ntype = ty) := by
  intro users
  induction users with
  | nil =>
    intro fresh
    refine ⟨OkEvents.nil, ⟨0, rfl⟩, ?_⟩
    intro n hn
    simp [fanLoop] at hn
  | cons u rest ih =>
    intro fresh
    rcases ih (fresh + 1) with ⟨ihOk, ⟨k, ihIds⟩, ihProps⟩
    rcases create_notification_cases ctx fresh u.id (mkT u) (mkM u) ty ex with
      ⟨hEq, _⟩ | ⟨hEq, _, _⟩ | ⟨hEq, _, _⟩
    · have h1 : fanLoop ctx mkT mkM ty ex fresh (u :: rest) = ([], .error ()) := by
        simp [fanLoop, hEq]
      rw [h1]
      exact ⟨OkEvents.nil, ⟨0, rfl⟩, by intro n hn; simp at hn⟩
    · have h1 : fanLoop ctx mkT mkM ty ex fresh (u :: rest) =
          ([.insert (mkNotif ctx fresh u.id (mkT u) (mkM u) ty ex)], .error ()) := by
        simp [fanLoop, hEq]
      rw [h1]
      refine ⟨OkEvents.insOnly _ OkEvents.nil, ⟨1, by simp [insertedIds, List.range']; rfl⟩, ?_⟩
      intro n' hn
      simp at hn
      subst hn
      exact ⟨rfl, rfl, rfl⟩
    · have h1 : fanLoop ctx mkT mkM ty ex fresh (u :: rest) =
          (.insert (mkNotif ctx fresh u.id (mkT u) (mkM u) ty ex) ::
            .push u.id (mkNotif ctx fresh u.id (mkT u) (mkM u) ty ex) ::
            (fanLoop ctx mkT mkM ty ex (fresh + 1) rest).1,
            ((fanLoop ctx mkT mkM ty ex (fresh + 1) rest).2).map
              ((mkNotif ctx fresh u.id (mkT u) (mkM u) ty ex) :: ·)) := by
        simp [fanLoop, hEq]
      rw [h1]
      refine ⟨OkEvents.insPush _ ihOk, ⟨k + 1, ?_⟩, ?_⟩
      · simp only [insertedIds, List.filterMap] at ihIds ⊢
        rw [ihIds]
        rfl
      · intro n' hn
        rcases List.mem_cons.1 hn with heq | hn'
        · cases heq
          exact ⟨rfl, rfl, rfl⟩
        · rcases List.mem_cons.1 hn' with heq | hn''
          · cases heq
          · exact ihProps n' hn''

/-- Failure-free broadcast: every listed recipient gets exactly one record,
in order, with the per-recipient rendering and severity. -/
theorem fanLoop_ok (ctx : NotifCtx) (mkT mkM : User → String) (ty : String)
    (ex : List (String × Option String)) :
    ∀ (users : List User) (fresh : Nat),
      (∀ u ∈ users, ctx.insert_fails u.id = false ∧ ctx.push_fails u.id = false) →
      ∃ ns, (fanLoop ctx mkT mkM ty ex fresh users).2 = .ok ns ∧
        List.Forall₂ (fun (n : Notification) (u : User) =>
          n.user_id = u.id ∧ n.ntype = ty ∧ n.title = mkT u ∧ n.message = mkM u ∧
            n.read = false) ns users := by
  intro users
  induction users with
  | nil => exact fun fresh h => ⟨[], rfl, List.Forall₂.nil⟩
  | cons u rest ih =>
    intro fresh h
    have hu := h u (List.mem_cons_self _ _)
    have hrest : ∀ v ∈ rest, ctx.insert_fails v.id = false ∧ ctx.push_fails v.id = false :=
      fun v hv => h v (List.mem_cons_of_mem _ hv)
    rcases create_notification_cases ctx fresh u.id (mkT u) (mkM u) ty ex with
      ⟨_, hbad⟩ | ⟨_, _, hbad⟩ | ⟨hEq, _, _⟩
    · rw [hu.1] at hbad; cases hbad
    · rw [hu.2] at hbad; cases hbad
    · rcases ih (fresh + 1) hrest with ⟨ns, hns, hfa⟩
      refine ⟨mkNotif ctx fresh u.id (mkT u) (mkM u) ty ex :: ns, ?_,
        List.Forall₂.cons ⟨rfl, rfl, rfl, rfl, rfl⟩ hfa⟩
      simp [fanLoop, hEq, hns, Except.map]

/-- A failing recipient aborts the loop: the trace is the trace of the
failure-free prefix followed by the failing recipient's own partial block;
recipients after the failure are never dispatched. -/
theorem fanLoop_abort (ctx : NotifCtx) (mkT mkM : User → String) (ty : String)
    (ex : List (String × Option String)) :
    ∀ (pre : List User) (u : User) (rest : List User) (fresh : Nat),
      (∀ v ∈ pre, ctx.insert_fails v.id = false ∧ ctx.push_fails v.id = false) →
      (ctx.insert_fails u.id = true ∨ ctx.push_fails u.id = true) →
      (fanLoop ctx mkT mkM ty ex fresh (pre ++ u :: rest)).2 = .error () ∧
      (fanLoop ctx mkT mkM ty ex fresh (pre ++ u :: rest)).1 =
        (fanLoop ctx mkT mkM ty ex fresh pre).1 ++
          (create_notification ctx (fresh + pre.length) u.id (mkT u) (mkM u) ty ex).1 := by
  intro pre
  induction pre with
  | nil =>
    intro u rest fresh hpre hu
    rcases create_notification_cases ctx fresh u.id (mkT u) (mkM u) ty ex with
      ⟨hEq, hI⟩ | ⟨hEq, hI, hP⟩ | ⟨hEq, hI, hP⟩
    · constructor <;> simp [fanLoop, hEq]
    · constructor <;> simp [fanLoop, hEq]
    · rcases hu with h | h
      · rw [hI] at h; cases h
      · rw [hP] at h; cases h
  | cons v pre' ih =>
    intro u rest fresh hpre hu
    have hv := hpre v (List.mem_cons_self _ _)
    have hpre' : ∀ w ∈ pre', ctx.insert_fails w.id = false ∧ ctx.push_fails w.id = false :=
      fun w hw => hpre w (List.mem_cons_of_mem _ hw)
    rcases create_notification_cases ctx fresh v.id (mkT v) (mkM v) ty ex with
      ⟨_, hbad⟩ | ⟨_, _, hbad⟩ | ⟨hEq, _, _⟩
    · rw [hv.1] at hbad; cases hbad
    · rw [hv.2] at hbad; cases hbad
    · rcases ih u rest (fresh + 1) hpre' hu with ⟨ih1, ih2⟩
      have hlen : fresh + 1 + pre'.length = fresh + (pre'.length + 1) := by omega
      rw [hlen] at ih2
      constructor
      · simp [List.cons_append, fanLoop, hEq, List.append_eq, ih1, Except.map]
      · simp only [List.cons_append, fanLoop, hEq, List.append_eq, List.length_cons]
        rw [ih2]
        simp [List.append_assoc]

/-! ## Placeholder-substitution lemmas -/

theorem fmtGo_nil (v : List Char) (fuel : Nat) : fmtOrderNumberGo v fuel [] = [] := by
  cases fuel <;> rfl

theorem fmtGo_cons_ne (v : List Char) {c : Char} (h : c ≠ '{') (fuel : Nat)
    (rest : List Char) :
    fmtOrderNumberGo v (fuel + 1) (c :: rest) = c :: fmtOrderNumberGo v fuel rest := by
  show (if c = '{' then _ else c :: fmtOrderNumberGo v fuel rest) =
    c :: fmtOrderNumberGo v fuel rest
  rw [if_neg h]

theorem fmtGo_id (v : List Char) : ∀ (xs : List Char) (fuel : Nat), xs.length ≤ fuel →
    (∀ c ∈ xs, c ≠ '{') → fmtOrderNumberGo v fuel xs = xs := by
  intro xs
  induction xs with
  | nil => intro fuel _ _; exact fmtGo_nil v fuel
  | cons c rest ih =>
    intro fuel hlen h
    cases fuel with
    | zero => simp at hlen
    | succ f =>
      rw [fmtGo_cons_ne v (h c (List.mem_cons_self _ _)),
        ih f (by simp at hlen; omega) fun d hd => h d (List.mem_cons_of_mem _ hd)]

theorem fmtGo_suffix (v : List Char) : ∀ (pre : List Char) (fuel : Nat),
    (pre ++ "{order_number}".data).length ≤ fuel → (∀ c ∈ pre, c ≠ '{') →
    fmtOrderNumberGo v fuel (pre ++ "{order_number}".data) = pre ++ v := by
  intro pre
  induction pre with
  | nil =>
    intro fuel hlen _
    match fuel, hlen with
    | f + 14, _ =>
      show v ++ fmtOrderNumberGo v (f + 13) [] = v
      rw [fmtGo_nil, List.append_nil]
  | cons c rest ih =>
    intro fuel hlen h
    cases fuel with
    | zero => simp at hlen
    | succ f =>
      rw [List.cons_append, fmtGo_cons_ne v (h c (List.mem_cons_self _ _)),
        ih f (by simp at hlen ⊢; omega) fun d hd => h d (List.mem_cons_of_mem _ hd),
        List.cons_append]

/-! # Claims -/

/-- C5: the checkpoint codec maps missing and unparseable input to "absent"
(it is a total function, so no error can escape: the Python `except` clause
returns `None`), and for every well-formed `Z`-suffixed or explicit-offset
ISO-8601 instant it returns the corresponding validated instant. -/
theorem C5_timestamp_codec :
    parse_timestamp none = none ∧
    parse_timestamp (some "") = none ∧
    (∀ y mo d hh mi ss : Nat, 1 ≤ y → y ≤ 9999 → 1 ≤ mo → mo ≤ 12 → 1 ≤ d →
      d ≤ daysInMonth y mo → hh ≤ 23 → mi ≤ 59 → ss ≤ 59 →
      parse_timestamp (some (renderZulu y mo d hh mi ss)) =
        some ⟨y, mo, d, hh, mi, ss, 0, some 0⟩) ∧
    (∀ (y mo d hh mi ss oh om : Nat) (neg : Bool), 1 ≤ y → y ≤ 9999 → 1 ≤ mo →
      mo ≤ 12 → 1 ≤ d → d ≤ daysInMonth y mo → hh ≤ 23 → mi ≤ 59 → ss ≤ 59 →
      oh ≤ 99 → om ≤ 99 → oh * 60 + om < 1440 →
      parse_timestamp (some (renderOffset y mo d hh mi ss neg oh om)) =
        some ⟨y, mo, d, hh, mi, ss, 0,
          some (if neg then -(((oh * 3600 + om * 60 : Nat) : Int) * 1000000)
            else ((oh * 3600 + om * 60 : Nat) : Int) * 1000000)⟩) := by
  refine ⟨rfl, by decide, ?_, ?_⟩
  · intro y mo d hh mi ss h1 h2 h3 h4 h5 h6 h7 h8 h9
    exact parse_renderZulu h1 h2 h3 h4 h5 h6 h7 h8 h9
  · intro y mo d hh mi ss oh om neg h1 h2 h3 h4 h5 h6 h7 h8 h9 h10 h11 h12
    exact parse_renderOffset h1 h2 h3 h4 h5 h6 h7 h8 h9 h10 h11 h12

theorem C5_timestamp_codec_witness :
    parse_timestamp (some "2024-03-05T10:20:30Z") =
      some ⟨2024, 3, 5, 10, 20, 30, 0, some 0⟩ ∧
    parse_timestamp (some "2024-03-05T10:20:30-05:30") =
      some ⟨2024, 3, 5, 10, 20, 30, 0, some (-19800000000)⟩ := by
  constructor
  · rw [show ("2024-03-05T10:20:30Z" : String) = renderZulu 2024 3 5 10 20 30 from by decide]
    exact C5_timestamp_codec.2.2.1 2024 3 5 10 20 30 (by norm_num) (by norm_num)
      (by norm_num) (by norm_num) (by norm_num) (by decide) (by norm_num) (by norm_num)
      (by norm_num)
  · rw [show ("2024-03-05T10:20:30-05:30" : String) =
      renderOffset 2024 3 5 10 20 30 true 5 30 from by decide]
    have h := C5_timestamp_codec.2.2.2 2024 3 5 10 20 30 5 30 true (by norm_num)
      (by norm_num) (by norm_num) (by norm_num) (by norm_num) (by decide) (by norm_num)
      (by norm_num) (by norm_num) (by norm_num) (by norm_num) (by norm_num)
    rw [h]
    norm_num

/-- A small concrete store used to instantiate universally quantified
claims: one live product updated after 2024-01-02T00:00:00Z, one product
soft-deleted after it, and one stale product. -/
def sampleStore : Store :=
  { products := [
      { id := "p1", updated_at := some (toEpochMicros ⟨2024, 1, 2, 0, 0, 0, 0, some 0⟩ + 5) },
      { id := "p2", updated_at := some 0 },
      { id := "p3", updated_at := some 3,
        deleted_at := some (toEpochMicros ⟨2024, 1, 2, 0, 0, 0, 0, some 0⟩ + 3) }],
    categories := [{ id := "c1", updated_at := some 7 }],
    orders := [], car_brands := [], car_models := [], product_brands := [] }

/-- C3: with a parsed checkpoint, every returned product is live and
strictly newer than the checkpoint; the result size never exceeds the
requested limit, whose default is 1000, and requests beyond the hard
ceiling of 5000 are rejected by validation. -/
theorem C3_products_delta_contract :
    products_limit_default = 1000 ∧ products_limit_ceiling = 5000 ∧
    (∀ (st : Store) (now : Int) (ls : Option String) (lim : Option Nat)
      (c : PyDateTime) (r : ProductsResp), parse_timestamp ls = some c →
      get_products_delta_endpoint st now ls lim = .ok r →
      (∀ p ∈ r.products, p.deleted_at = none ∧
        ∃ u, p.updated_at = some u ∧ toEpochMicros c < u) ∧
      r.products.length ≤ lim.getD products_limit_default) ∧
    (∀ (st : Store) (now : Int) (ls : Option String) (lim : Option Nat),
      (∃ r, get_products_delta_endpoint st now ls lim = .ok r) ↔
        lim.getD products_limit_default ≤ products_limit_ceiling) := by
  refine ⟨rfl, rfl, ?_, ?_⟩
  · intro st now ls lim c r hc hr
    have hok : r = get_products_delta st now ls (lim.getD products_limit_default) := by
      by_cases h : lim.getD products_limit_default ≤ products_limit_ceiling
      · simp [get_products_delta_endpoint, h] at hr
        exact hr.symm
      · simp [get_products_delta_endpoint, h] at hr
    subst hok
    constructor
    · intro p hp
      simp only [get_products_delta] at hp
      have hp1 := List.mem_of_mem_take hp
      have hp2 := mem_of_mem_sortBy hp1
      have hp3 := (List.mem_filter.1 hp2).2
      rw [hc] at hp3
      simp only [changedMatch, Bool.and_eq_true, decide_eq_true_eq] at hp3
      refine ⟨hp3.1, ?_⟩
      rcases hu : p.updated_at with _ | u
      · rw [hu] at hp3
        simp at hp3
      · rw [hu] at hp3
        exact ⟨u, rfl, by simp at hp3; exact hp3.2⟩
    · simp only [get_products_delta]
      exact List.length_take_le _ _
  · intro st now ls lim
    by_cases h : lim.getD products_limit_default ≤ products_limit_ceiling
    · simp [get_products_delta_endpoint, h]
    · simp [get_products_delta_endpoint, h]

theorem C3_products_delta_contract_witness :
    (∀ p ∈ (get_products_delta sampleStore 0 (some "2024-01-02T00:00:00Z") 1000).products,
      p.deleted_at = none ∧
      ∃ u, p.updated_at = some u ∧ toEpochMicros ⟨2024, 1, 2, 0, 0, 0, 0, some 0⟩ < u) ∧
    (get_products_delta sampleStore 0 (some "2024-01-02T00:00:00Z") 1000).products.length ≤
      1000 :=
  C3_products_delta_contract.2.2.1 sampleStore 0 (some "2024-01-02T00:00:00Z") none
    ⟨2024, 1, 2, 0, 0, 0, 0, some 0⟩ _ (by decide) rfl

theorem parse_timestamp_none : parse_timestamp none = none := rfl

/-- C4: a request without a checkpoint is answered as a full sync:
`is_delta = false` and an empty tombstone list, on every sync endpoint. -/
theorem C4_no_checkpoint_full_sync :
    ∀ (st : Store) (now : Int) (limit : Nat) (uid tables : Option String),
      (get_products_delta st now none limit).is_delta = false ∧
      (get_products_delta st now none limit).deleted_ids = [] ∧
      (get_categories_delta st now none).is_delta = false ∧
      (get_categories_delta st now none).deleted_ids = [] ∧
      (get_orders_delta st now none uid).is_delta = false ∧
      (get_orders_delta st now none uid).deleted_ids = [] ∧
      (get_car_brands_delta st now none).is_delta = false ∧
      (get_car_brands_delta st now none).deleted_ids = [] ∧
      (get_car_models_delta st now none).is_delta = false ∧
      (get_car_models_delta st now none).deleted_ids = [] ∧
      (get_product_brands_delta st now none).is_delta = false ∧
      (get_product_brands_delta st now none).deleted_ids = [] ∧
      (get_full_delta st now none tables).is_delta = false ∧
      (∀ p ∈ (get_full_delta st now none tables).data, p.2.deleted_ids = []) := by
  intro st now limit uid tables
  refine ⟨rfl, rfl, rfl, rfl, rfl, rfl, rfl, rfl, rfl, rfl, rfl, rfl, rfl, ?_⟩
  intro p hp
  simp only [get_full_delta] at hp
  exact fullLoop_deleted_nil st _ [] (by simp) p hp

/-- C9: a non-empty but unparseable checkpoint string produces full-sync
content (no update filter, no tombstones) on every endpoint while the
response still reports `is_delta = true`, because `is_delta` is computed
from the raw query string rather than the parsed checkpoint. -/
theorem C9_unparseable_checkpoint_claims_delta :
    ∀ (st : Store) (now : Int) (s : String) (limit : Nat) (uid tables : Option String),
      s ≠ "" → parse_timestamp (some s) = none →
      (get_products_delta st now (some s) limit).products =
        (get_products_delta st now none limit).products ∧
      (get_products_delta st now (some s) limit).deleted_ids = [] ∧
      (get_products_delta st now (some s) limit).is_delta = true ∧
      (get_categories_delta st now (some s)).items =
        (get_categories_delta st now none).items ∧
      (get_categories_delta st now (some s)).deleted_ids = [] ∧
      (get_categories_delta st now (some s)).is_delta = true ∧
      (get_orders_delta st now (some s) uid).items =
        (get_orders_delta st now none uid).items ∧
      (get_orders_delta st now (some s) uid).deleted_ids = [] ∧
      (get_orders_delta st now (some s) uid).is_delta = true ∧
      (get_car_brands_delta st now (some s)).items =
        (get_car_brands_delta st now none).items ∧
      (get_car_brands_delta st now (some s)).deleted_ids = [] ∧
      (get_car_brands_delta st now (some s)).is_delta = true ∧
      (get_car_models_delta st now (some s)).items =
        (get_car_models_delta st now none).items ∧
      (get_car_models_delta st now (some s)).deleted_ids = [] ∧
      (get_car_models_delta st now (some s)).is_delta = true ∧
      (get_product_brands_delta st now (some s)).items =
        (get_product_brands_delta st now none).items ∧
      (get_product_brands_delta st now (some s)).deleted_ids = [] ∧
      (get_product_brands_delta st now (some s)).is_delta = true ∧
      (get_full_delta st now (some s) tables).data =
        (get_full_delta st now none tables).data ∧
      (get_full_delta st now (some s) tables).is_delta = true := by
  intro st now s limit uid tables hne hp
  refine ⟨?_, ?_, rfl, ?_, ?_, rfl, ?_, ?_, rfl, ?_, ?_, rfl, ?_, ?_, rfl, ?_, ?_, rfl,
    ?_, rfl⟩ <;>
    simp [get_products_delta, get_categories_delta, get_orders_delta,
      get_car_brands_delta, get_car_models_delta, get_product_brands_delta,
      get_full_delta, parse_timestamp_none, hp]

theorem C9_unparseable_checkpoint_claims_delta_witness :
    "2024-13-45T99:00:00Z" ≠ "" ∧ parse_timestamp (some "2024-13-45T99:00:00Z") = none ∧
    (get_products_delta sampleStore 0 (some "2024-13-45T99:00:00Z") 1000).deleted_ids = [] ∧
    (get_products_delta sampleStore 0 (some "2024-13-45T99:00:00Z") 1000).is_delta = true :=
  ⟨by decide, by decide,
    (C9_unparseable_checkpoint_claims_delta sampleStore 0 "2024-13-45T99:00:00Z" 1000
      none none (by decide) (by decide)).2.1,
    (C9_unparseable_checkpoint_claims_delta sampleStore 0 "2024-13-45T99:00:00Z" 1000
      none none (by decide) (by decide)).2.2.1⟩

/-! ## C2: tombstone batch ceilings -/

theorem filter_replicate_of_pos {α : Type} {p : α → Bool} {a : α} (h : p a = true) :
    ∀ n, (List.replicate n a).filter p = List.replicate n a := by
  intro n
  induction n with
  | zero => rfl
  | succ k ih => simp [List.replicate_succ, List.filter, h, ih]

/-- C2 (amended): each endpoint's tombstone query is silently capped, and
below the cap it is complete; the caps are 1000 for products, 500 for
orders and categories, 200 for car models and 100 for car brands and
product brands. -/
theorem C2_tombstone_ceilings :
    ∀ (st : Store) (now : Int) (ls : Option String) (c : PyDateTime) (limit : Nat)
      (uid : Option String), parse_timestamp ls = some c →
      ((get_products_delta st now ls limit).deleted_ids.length ≤ 1000 ∧
        ((st.products.filter (deletedMatch c)).length ≤ 1000 →
          (get_products_delta st now ls limit).deleted_ids =
            (st.products.filter (deletedMatch c)).map (·.id))) ∧
      ((get_orders_delta st now ls uid).deleted_ids.length ≤ 500 ∧
        ((st.orders.filter (orderDeletedMatch c uid)).length ≤ 500 →
          (get_orders_delta st now ls uid).deleted_ids =
            (st.orders.filter (orderDeletedMatch c uid)).map (·.id))) ∧
      ((get_categories_delta st now ls).deleted_ids.length ≤ 500 ∧
        ((st.categories.filter (deletedMatch c)).length ≤ 500 →
          (get_categories_delta st now ls).deleted_ids =
            (st.categories.filter (deletedMatch c)).map (·.id))) ∧
      ((get_car_brands_delta st now ls).deleted_ids.length ≤ 100 ∧
        ((st.car_brands.filter (deletedMatch c)).length ≤ 100 →
          (get_car_brands_delta st now ls).deleted_ids =
            (st.car_brands.filter (deletedMatch c)).map (·.id))) ∧
      ((get_car_models_delta st now ls).deleted_ids.length ≤ 200 ∧
        ((st.car_models.filter (deletedMatch c)).length ≤ 200 →
          (get_car_models_delta st now ls).deleted_ids =
            (st.car_models.filter (deletedMatch c)).map (·.id))) ∧
      ((get_product_brands_delta st now ls).deleted_ids.length ≤ 100 ∧
        ((st.product_brands.filter (deletedMatch c)).length ≤ 100 →
          (get_product_brands_delta st now ls).deleted_ids =
            (st.product_brands.filter (deletedMatch c)).map (·.id))) := by
  intro st now ls c limit uid hc
  refine ⟨⟨?_, ?_⟩, ⟨?_, ?_⟩, ⟨?_, ?_⟩, ⟨?_, ?_⟩, ⟨?_, ?_⟩, ⟨?_, ?_⟩⟩ <;>
    simp only [get_products_delta, get_orders_delta, get_categories_delta,
      get_car_brands_delta, get_car_models_delta, get_product_brands_delta, hc]
  · rw [List.length_map]
    exact List.length_take_le _ _
  · intro h
    rw [List.take_of_length_le h]
  · rw [List.length_map]
    exact List.length_take_le _ _
  · intro h
    rw [List.take_of_length_le h]
  · rw [List.length_map]
    exact List.length_take_le _ _
  · intro h
    rw [List.take_of_length_le h]
  · rw [List.length_map]
    exact List.length_take_le _ _
  · intro h
    rw [List.take_of_length_le h]
  · rw [List.length_map]
    exact List.length_take_le _ _
  · intro h
    rw [List.take_of_length_le h]
  · rw [List.length_map]
    exact List.length_take_le _ _
  · intro h
    rw [List.take_of_length_le h]

theorem C2_tombstone_ceilings_witness :
    ((get_products_delta sampleStore 0 (some "2024-01-02T00:00:00Z") 1000).deleted_ids.length ≤
        1000) ∧
    (get_products_delta sampleStore 0 (some "2024-01-02T00:00:00Z") 1000).deleted_ids =
      (sampleStore.products.filter
        (deletedMatch ⟨2024, 1, 2, 0, 0, 0, 0, some 0⟩)).map (·.id) :=
  ⟨((C2_tombstone_ceilings sampleStore 0 (some "2024-01-02T00:00:00Z")
      ⟨2024, 1, 2, 0, 0, 0, 0, some 0⟩ 1000 none (by decide)).1).1,
    ((C2_tombstone_ceilings sampleStore 0 (some "2024-01-02T00:00:00Z")
      ⟨2024, 1, 2, 0, 0, 0, 0, some 0⟩ 1000 none (by decide)).1).2 (by decide)⟩

/-- A store holding 501 soft-deleted orders, all newer than any 1970
checkpoint. -/
def ordersOverflowStore : Store :=
  { orders := List.replicate 501 { id := "o", deleted_at := some 1 } }

/-- C2 (counterexample): 501 order tombstones qualify — within the claimed
ceiling of 1000 for orders — yet the endpoint returns only 500 ids: the
order tombstone cap is 500, not 1000. -/
theorem C2_tombstone_ceilings_counterexample :
    (ordersOverflowStore.orders.filter
      (orderDeletedMatch ⟨1970, 1, 1, 0, 0, 0, 0, some 0⟩ none)).length = 501 ∧
    (501 : Nat) ≤ 1000 ∧
    (get_orders_delta ordersOverflowStore 0 (some "1970-01-01T00:00:00Z")
      none).deleted_ids.length = 500 := by
  have hq : orderDeletedMatch ⟨1970, 1, 1, 0, 0, 0, 0, some 0⟩ none
      { id := "o", deleted_at := some 1 } = true := by decide
  have hcp : parse_timestamp (some "1970-01-01T00:00:00Z") =
      some ⟨1970, 1, 1, 0, 0, 0, 0, some 0⟩ := by decide
  refine ⟨?_, by norm_num, ?_⟩
  · rw [show ordersOverflowStore.orders = List.replicate 501
      { id := "o", deleted_at := some 1 } from rfl, filter_replicate_of_pos hq]
    exact List.length_replicate _ _
  · simp only [get_orders_delta, hcp]
    rw [show ordersOverflowStore.orders = List.replicate 501
      { id := "o", deleted_at := some 1 } from rfl, filter_replicate_of_pos hq,
      List.length_map, List.length_take, List.length_replicate]
    norm_num

/-- C6: the combined endpoint only ever materializes supported entity types
under `data` (an unknown requested name is silently skipped, producing no
key and no error), and a request without `tables` processes the full
catalog of five supported types, in order. -/
theorem C6_full_delta_type_dispatch :
    (∀ (st : Store) (now : Int) (ls tables : Option String),
      ∀ p ∈ (get_full_delta st now ls tables).data, p.1 ∈ supportedTables) ∧
    (∀ (st : Store) (now : Int) (ls : Option String),
      (get_full_delta st now ls none).data.map Prod.fst = supportedTables) := by
  constructor
  · intro st now ls tables p hp
    simp only [get_full_delta] at hp
    exact fullLoop_keys st _ _ [] (by simp) p hp
  · intro st now ls
    rfl

theorem C6_full_delta_type_dispatch_witness :
    "categories" ∈ supportedTables ∧
    (get_full_delta sampleStore 0 none (some "bogus_type,categories")).data.map Prod.fst =
      ["categories"] :=
  ⟨C6_full_delta_type_dispatch.1 sampleStore 0 none (some "bogus_type,categories")
      ("categories", fullEntry sampleStore none "categories") (by decide),
    by decide⟩

/-- C7 (counterexample): with the requested locale string `"type"`, an
unrecognized status renders the severity string `"info"` as the message —
the template-dict lookup `status_config.get(language, ...)` collides with
the `type` key — so the message is not the generic fallback and contains
neither the humanized status nor the order number. -/
theorem C7_unrecognized_status_counterexample :
    orderStatusMessages "refund_pending" = none ∧
    (renderOrderStatus "X1" "refund_pending" "type").2.1 = "info" ∧
    (renderOrderStatus "X1" "refund_pending" "type").2.1 ≠
      "Your order X1 status has been updated to refund pending" ∧
    (renderOrderStatus "X1" "refund_pending" "type").2.1 ≠
      "تم تحديث حالة طلبك X1 إلى refund pending" ∧
    (renderOrderStatus "X1" "refund_pending" "type").2.2 = "info" := by
  refine ⟨rfl, ?_, ?_, ?_, rfl⟩ <;> decide

theorem fmtOrderNumber_id (v t : String) (h : ∀ c ∈ t.data, c ≠ '{') :
    fmtOrderNumber v t = t := by
  simp only [fmtOrderNumber]
  rw [fmtGo_id v.data t.data t.data.length (le_refl _) h]

theorem noBrace_append {a b : String} (ha : ∀ c ∈ a.data, c ≠ '{')
    (hb : ∀ c ∈ b.data, c ≠ '{') : ∀ c ∈ (a ++ b).data, c ≠ '{' := by
  intro c hc
  rw [String.data_append] at hc
  rcases List.mem_append.1 hc with h | h
  · exact ha c h
  · exact hb c h

/-- C7 (amended): for an unrecognized status and any locale other than the
literal string `"type"`, the message is exactly the generic fallback —
locale `"ar"` selects the Arabic fallback, anything else the English one —
containing the humanized status (underscores replaced by spaces) and the
order number, and the severity is `info`.  (Order number and status are
assumed brace-free so that the later `str.format` pass is the identity.) -/
theorem C7_unrecognized_status_fallback :
    ∀ (order_number status language : String),
      orderStatusMessages status = none → language ≠ "type" →
      (∀ c ∈ order_number.data, c ≠ '{') → (∀ c ∈ status.data, c ≠ '{') →
      (renderOrderStatus order_number status language).2.1 =
        (if language = "ar" then
          "تم تحديث حالة طلبك " ++ order_number ++ " إلى " ++ humanizeStatus status
        else "Your order " ++ order_number ++ " status has been updated to " ++
          humanizeStatus status) ∧
      (renderOrderStatus order_number status language).2.2 = "info" := by
  intro onum status language hst hlang honum hstatus
  have hhum : ∀ c ∈ (humanizeStatus status).data, c ≠ '{' := by
    intro c hc
    simp only [humanizeStatus, List.mem_map] at hc
    rcases hc with ⟨d, hd, rfl⟩
    by_cases h : d = '_'
    · simp [h]
    · simpa [h] using hstatus d hd
  have hen' : ∀ c ∈ ("Your order " ++ onum ++ " status has been updated to " ++
      humanizeStatus status).data, c ≠ '{' :=
    noBrace_append (noBrace_append (noBrace_append (by decide) honum) (by decide)) hhum
  have har' : ∀ c ∈ ("تم تحديث حالة طلبك " ++ onum ++ " إلى " ++
      humanizeStatus status).data, c ≠ '{' :=
    noBrace_append (noBrace_append (noBrace_append (by decide) honum) (by decide)) hhum
  refine ⟨?_, by simp [renderOrderStatus, hst]⟩
  simp only [renderOrderStatus, hst]
  by_cases hen : language = "en"
  · rw [if_neg (by rw [hen]; decide)]
    simp only [cfgGetMessage, hen, if_true]
    exact fmtOrderNumber_id _ _ hen'
  · by_cases har : language = "ar"
    · rw [if_pos har]
      simp only [cfgGetMessage, hen, har, if_false, if_true]
      exact fmtOrderNumber_id _ _ har'
    · rw [if_neg har]
      simp only [cfgGetMessage, hen, har, hlang, if_false]
      exact fmtOrderNumber_id _ _ hen'

theorem C7_unrecognized_status_fallback_witness :
    (renderOrderStatus "SO-9" "refund_pending" "ar").2.1 =
      "تم تحديث حالة طلبك SO-9 إلى refund pending" ∧
    (renderOrderStatus "SO-9" "refund_pending" "ar").2.2 = "info" := by
  have h := C7_unrecognized_status_fallback "SO-9" "refund_pending" "ar" rfl
    (by decide) (by decide) (by decide)
  refine ⟨?_, h.2⟩
  rw [h.1]
  decide

/-- C8: an order-status notification for status `shipped` rendered in
locale `ar` carries the Arabic title `تم الشحن`, and its message is the
Arabic shipped template with the order number substituted for the
`{order_number}` placeholder — i.e. exactly `تم شحن طلبك ` followed by the
order number; the record dispatched by the trigger carries those values. -/
theorem C8_shipped_arabic_rendering :
    ∀ (order_number : String) (ctx : NotifCtx) (fresh : Nat) (uid : String)
      (oid : Option String),
      (renderOrderStatus order_number "shipped" "ar").1 = "تم الشحن" ∧
      (renderOrderStatus order_number "shipped" "ar").2.1 =
        "تم شحن طلبك " ++ order_number ∧
      (∀ n, NEvent.insert n ∈ (create_order_status_notification ctx fresh uid
          order_number "shipped" oid "ar").1 →
        n.title = "تم الشحن" ∧ n.message = "تم شحن طلبك " ++ order_number) := by
  intro onum ctx fresh uid oid
  have htitle : (renderOrderStatus onum "shipped" "ar").1 = "تم الشحن" := rfl
  have hmsg : (renderOrderStatus onum "shipped" "ar").2.1 = "تم شحن طلبك " ++ onum := by
    show (⟨fmtOrderNumberGo onum.data
        (("تم شحن طلبك " : String).data ++ ("{order_number}" : String).data).length
        (("تم شحن طلبك " : String).data ++ ("{order_number}" : String).data)⟩ : String) =
      "تم شحن طلبك " ++ onum
    rw [fmtGo_suffix onum.data ("تم شحن طلبك " : String).data _ (le_refl _) (by decide)]
    rfl
  refine ⟨htitle, hmsg, ?_⟩
  intro n hn
  have hn' : n = mkNotif ctx fresh uid (renderOrderStatus onum "shipped" "ar").1
      (renderOrderStatus onum "shipped" "ar").2.1
      (renderOrderStatus onum "shipped" "ar").2.2
      [("order_id", oid), ("order_number", some onum), ("status", some "shipped"),
        ("notification_category", some "order")] := by
    simp only [create_order_status_notification] at hn
    rcases create_notification_cases ctx fresh uid
        (renderOrderStatus onum "shipped" "ar").1
        (renderOrderStatus onum "shipped" "ar").2.1
        (renderOrderStatus onum "shipped" "ar").2.2
        [("order_id", oid), ("order_number", some onum), ("status", some "shipped"),
          ("notification_category", some "order")] with
      ⟨hEq, _⟩ | ⟨hEq, _, _⟩ | ⟨hEq, _, _⟩
    · rw [hEq] at hn
      simp at hn
    · rw [hEq] at hn
      simpa using hn
    · rw [hEq] at hn
      simpa using hn
  rw [hn']
  exact ⟨htitle, hmsg⟩

theorem C8_shipped_arabic_rendering_witness :
    (mkNotif ⟨fun _ => false, fun _ => false, 0⟩ 0 "u1" "تم الشحن"
        "تم شحن طلبك ON-1" "info"
        [("order_id", none), ("order_number", some "ON-1"), ("status", some "shipped"),
          ("notification_category", some "order")]).title = "تم الشحن" ∧
    (mkNotif ⟨fun _ => false, fun _ => false, 0⟩ 0 "u1" "تم الشحن"
        "تم شحن طلبك ON-1" "info"
        [("order_id", none), ("order_number", some "ON-1"), ("status", some "shipped"),
          ("notification_category", some "order")]).message = "تم شحن طلبك " ++ "ON-1" :=
  (C8_shipped_arabic_rendering "ON-1" ⟨fun _ => false, fun _ => false, 0⟩ 0 "u1"
    none).2.2 _ (by decide)

/-- C1 (amended): in a failure-free run the promotional broadcast creates
exactly one record per non-deleted user (up to the `to_list(10000)` cap),
each with severity `promo` and the title/message pair chosen by that user's
stored preferred language (Arabic when the preference is `ar` or missing);
but the dispatch loop is sequential and unguarded, so a persist or
live-push failure for one recipient aborts dispatch to every recipient not
yet processed. -/
theorem C1_promotional_broadcast :
    ∀ (ctx : NotifCtx) (users : List User) (fresh : Nat) (t ta m ma : String)
      (iu pid bid tu : Option String),
      ((∀ u ∈ (users.filter fun u => decide (u.deleted_at = none)).take 10000,
          ctx.insert_fails u.id = false ∧ ctx.push_fails u.id = false) →
        ∃ ns, (create_promotional_notification ctx users fresh t ta m ma
            iu pid bid tu).2 = .ok ns ∧
          ns.length =
            ((users.filter fun u => decide (u.deleted_at = none)).take 10000).length ∧
          List.Forall₂ (fun (n : Notification) (u : User) =>
            n.user_id = u.id ∧ n.ntype = "promo" ∧
              n.title = (if userLang u = "ar" then ta else t) ∧
              n.message = (if userLang u = "ar" then ma else m) ∧ n.read = false)
            ns ((users.filter fun u => decide (u.deleted_at = none)).take 10000)) ∧
      (∀ (pre : List User) (u : User) (rest : List User),
        (users.filter fun u => decide (u.deleted_at = none)).take 10000 =
          pre ++ u :: rest →
        (∀ v ∈ pre, ctx.insert_fails v.id = false ∧ ctx.push_fails v.id = false) →
        (ctx.insert_fails u.id = true ∨ ctx.push_fails u.id = true) →
        (create_promotional_notification ctx users fresh t ta m ma iu pid bid tu).2 =
          .error () ∧
        (create_promotional_notification ctx users fresh t ta m ma iu pid bid tu).1 =
          (fanLoop ctx (fun u => if userLang u = "ar" then ta else t)
            (fun u => if userLang u = "ar" then ma else m) "promo"
            (promoExtra iu pid bid tu) fresh pre).1 ++
          (create_notification ctx (fresh + pre.length) u.id
            (if userLang u = "ar" then ta else t)
            (if userLang u = "ar" then ma else m) "promo"
            (promoExtra iu pid bid tu)).1) := by
  intro ctx users fresh t ta m ma iu pid bid tu
  constructor
  · intro hok
    have h := fanLoop_ok ctx (fun v => if userLang v = "ar" then ta else t)
      (fun v => if userLang v = "ar" then ma else m) "promo"
      (promoExtra iu pid bid tu)
      ((users.filter fun v => decide (v.deleted_at = none)).take 10000) fresh hok
    obtain ⟨ns, hns, hfa⟩ := h
    exact ⟨ns, hns, hfa.length_eq, hfa⟩
  · intro pre u rest hsplit hpre hu
    have h := fanLoop_abort ctx (fun u => if userLang u = "ar" then ta else t)
      (fun u => if userLang u = "ar" then ma else m) "promo"
      (promoExtra iu pid bid tu) pre u rest fresh hpre hu
    constructor
    · show (fanLoop ctx _ _ _ _ fresh
        ((users.filter fun u => decide (u.deleted_at = none)).take 10000)).2 = _
      rw [hsplit]
      exact h.1
    · show (fanLoop ctx _ _ _ _ fresh
        ((users.filter fun u => decide (u.deleted_at = none)).take 10000)).1 = _
      rw [hsplit]
      exact h.2

theorem C1_promotional_broadcast_witness :
    ∃ ns, (create_promotional_notification ⟨fun _ => false, fun _ => false, 7⟩
        [{ id := "u1" }, { id := "u2", preferred_language := some "en" }] 0
        "Sale" "تخفيضات" "Big sale" "تخفيضات كبيرة" none none none none).2 = .ok ns ∧
      ns.length = (List.take 10000 (([{ id := "u1" },
        { id := "u2", preferred_language := some "en" }] : List User).filter
          fun u => decide (u.deleted_at = none))).length ∧
      List.Forall₂ (fun (n : Notification) (u : User) =>
        n.user_id = u.id ∧ n.ntype = "promo" ∧
          n.title = (if userLang u = "ar" then "تخفيضات" else "Sale") ∧
          n.message = (if userLang u = "ar" then "تخفيضات كبيرة" else "Big sale") ∧
          n.read = false)
        ns (List.take 10000 (([{ id := "u1" },
          { id := "u2", preferred_language := some "en" }] : List User).filter
            fun u => decide (u.deleted_at = none))) :=
  (C1_promotional_broadcast ⟨fun _ => false, fun _ => false, 7⟩
    [{ id := "u1" }, { id := "u2", preferred_language := some "en" }] 0
    "Sale" "تخفيضات" "Big sale" "تخفيضات كبيرة" none none none none).1 (by decide)

/-- C1 (counterexample): two active users; the live push to the first
fails.  The run aborts with an error after persisting only the first
user's record: the second user receives nothing, although the claim
promises that a failure for one recipient does not prevent the rest. -/
theorem C1_promotional_broadcast_counterexample :
    ((([{ id := "u1" }, { id := "u2" }] : List User).filter
      fun u => decide (u.deleted_at = none)).length = 2) ∧
    (create_promotional_notification
      ⟨fun _ => false, fun uid => uid == "u1", 7⟩
      [{ id := "u1" }, { id := "u2" }] 0 "T" "TA" "M" "MA" none none none none).2 =
      .error () ∧
    (create_promotional_notification
      ⟨fun _ => false, fun uid => uid == "u1", 7⟩
      [{ id := "u1" }, { id := "u2" }] 0 "T" "TA" "M" "MA" none none none none).1 =
      [NEvent.insert (mkNotif ⟨fun _ => false, fun uid => uid == "u1", 7⟩ 0 "u1"
        "TA" "MA" "promo" (promoExtra none none none none))] :=
  ⟨by decide, by decide, by decide⟩

/-- C10: every record produced by a fanout trigger (order status,
promotional broadcast, admin activity) is created with `read = false`, a
fresh identifier unique within the run, and the trigger's `created_at`
instant; and in the dispatch trace every live push is attempted only after
the same record was persisted. -/
theorem C10_notification_record_invariants :
    (∀ (ctx : NotifCtx) (fresh : Nat) (uid onum status : String)
      (oid : Option String) (lang : String),
      OkEvents (create_order_status_notification ctx fresh uid onum status oid lang).1 ∧
      (∀ n, NEvent.insert n ∈
          (create_order_status_notification ctx fresh uid onum status oid lang).1 →
        n.read = false ∧ n.created_at = ctx.now) ∧
      (insertedIds
        (create_order_status_notification ctx fresh uid onum status oid lang).1).Nodup) ∧
    (∀ (ctx : NotifCtx) (users : List User) (fresh : Nat) (t ta m ma : String)
      (iu pid bid tu : Option String),
      OkEvents (create_promotional_notification ctx users fresh t ta m ma
        iu pid bid tu).1 ∧
      (∀ n, NEvent.insert n ∈ (create_promotional_notification ctx users fresh
          t ta m ma iu pid bid tu).1 →
        n.read = false ∧ n.created_at = ctx.now ∧ n.ntype = "promo") ∧
      (insertedIds (create_promotional_notification ctx users fresh t ta m ma
        iu pid bid tu).1).Nodup) ∧
    (∀ (ctx : NotifCtx) (users : List User) (fresh : Nat)
      (aty te ta me mar : String) (ex : List (String × Option String)),
      OkEvents (create_admin_activity_notification ctx users fresh
        aty te ta me mar ex).1 ∧
      (∀ n, NEvent.insert n ∈ (create_admin_activity_notification ctx users fresh
          aty te ta me mar ex).1 →
        n.read = false ∧ n.created_at = ctx.now ∧ n.ntype = "admin") ∧
      (insertedIds (create_admin_activity_notification ctx users fresh
        aty te ta me mar ex).1).Nodup) := by
  refine ⟨?_, ?_, ?_⟩
  · intro ctx fresh uid onum status oid lang
    simp only [create_order_status_notification]
    rcases create_notification_cases ctx fresh uid
        (renderOrderStatus onum status lang).1 (renderOrderStatus onum status lang).2.1
        (renderOrderStatus onum status lang).2.2
        [("order_id", oid), ("order_number", some onum), ("status", some status),
          ("notification_category", some "order")] with
      ⟨hEq, _⟩ | ⟨hEq, _, _⟩ | ⟨hEq, _, _⟩ <;> rw [hEq]
    · exact ⟨OkEvents.nil, by intro n hn; simp at hn, by simp [insertedIds]⟩
    · refine ⟨OkEvents.insOnly _ OkEvents.nil, ?_, by simp [insertedIds]⟩
      intro n hn
      simp at hn
      rw [hn]
      exact ⟨rfl, rfl⟩
    · refine ⟨OkEvents.insPush _ OkEvents.nil, ?_, by simp [insertedIds]⟩
      intro n hn
      simp at hn
      rw [hn]
      exact ⟨rfl, rfl⟩
  · intro ctx users fresh t ta m ma iu pid bid tu
    have h := fanLoop_spec ctx (fun v => if userLang v = "ar" then ta else t)
      (fun v => if userLang v = "ar" then ma else m) "promo"
      (promoExtra iu pid bid tu)
      ((users.filter fun v => decide (v.deleted_at = none)).take 10000) fresh
    obtain ⟨hOk, ⟨k, hIds⟩, hProps⟩ := h
    refine ⟨hOk, hProps, ?_⟩
    show (insertedIds (fanLoop ctx _ _ _ _ fresh _).1).Nodup
    rw [hIds]
    exact List.nodup_range' _ _
  · intro ctx users fresh aty te ta me mar ex
    have h := fanLoop_spec ctx (fun v => if userLang v = "ar" then ta else te)
      (fun v => if userLang v = "ar" then mar else me) "admin"
      ([("notification_category", some "admin_activity"),
          ("activity_type", some aty)] ++ ex)
      ((users.filter adminRoleMatch).take 1000) fresh
    obtain ⟨hOk, ⟨k, hIds⟩, hProps⟩ := h
    refine ⟨hOk, hProps, ?_⟩
    show (insertedIds (fanLoop ctx _ _ _ _ fresh _).1).Nodup
    rw [hIds]
    exact List.nodup_range' _ _

theorem C10_notification_record_invariants_witness :
    (mkNotif ⟨fun _ => false, fun _ => false, 7⟩ 0 "u1" "تم الشحن"
        "تم شحن طلبك ON1" "info"
        [("order_id", none), ("order_number", some "ON1"), ("status", some "shipped"),
          ("notification_category", some "order")]).read = false ∧
    (mkNotif ⟨fun _ => false, fun _ => false, 7⟩ 0 "u1" "تم الشحن"
        "تم شحن طلبك ON1" "info"
        [("order_id", none), ("order_number", some "ON1"), ("status", some "shipped"),
          ("notification_category", some "order")]).created_at = 7 :=
  (C10_notification_record_invariants.1 ⟨fun _ => false, fun _ => false, 7⟩ 0 "u1"
    "ON1" "shipped" none "ar").2.1 _ (by decide)
